import Mathlib

/-!
# Event dispatch of botgo (`event/event.go`)

A shallow embedding of `ParseAndHandle`, `ParseData`, the routing table
`eventParseFuncMap` and the per-category decode-and-dispatch routines,
together with the properties of the dispatch core proved about them.

Layout: byte strings and errors, a model of the libraries the code calls
(`encoding/json`, `gjson` and, behind gjson, `strconv`), the declarations of
package `dto` and of the handler registry that `event.go` uses, the functions
of `event.go`, and then the theorems.
-/

namespace Botgo

/-- Byte slices and strings of the program: the list of their byte values. -/
abbrev Bytes := List Nat

/-- The bytes of an ASCII text. -/
def ascii (s : String) : Bytes := s.toList.map Char.toNat

/-- Error values of the program: the two kinds `encoding/json` reports when it
decodes, and the errors a callback of the embedding application returns. -/
inductive GoError where
  | SyntaxError
  | UnmarshalTypeError (value : String)
  | Callback (msg : String)
  deriving DecidableEq, Repr

/-! ## `encoding/json` -/

namespace json

/-- A JSON document. A number keeps its literal text. -/
inductive Value where
  | null
  | bool (b : Bool)
  | number (lit : Bytes)
  | string (s : Bytes)
  | array (elems : List Value)
  | object (members : List (Bytes × Value))
  deriving Repr

/-- Space, tab, carriage return and line feed. -/
def isSpace (c : Nat) : Bool := c = 32 || c = 9 || c = 13 || c = 10

def isDigit (c : Nat) : Bool := 48 ≤ c && c ≤ 57

def skipSpace : Bytes → Bytes
  | [] => []
  | c :: cs => if isSpace c then skipSpace cs else c :: cs

def hexVal (c : Nat) : Option Nat :=
  if 48 ≤ c ∧ c ≤ 57 then some (c - 48)
  else if 97 ≤ c ∧ c ≤ 102 then some (c - 87)
  else if 65 ≤ c ∧ c ≤ 70 then some (c - 55)
  else none

/-- The value of four hexadecimal digits. -/
def hex4 (a b c d : Nat) : Option Nat :=
  match hexVal a, hexVal b, hexVal c, hexVal d with
  | some w, some x, some y, some z => some (((w * 16 + x) * 16 + y) * 16 + z)
  | _, _, _, _ => none

/-- UTF-8 encoding of a code point; a surrogate is replaced by U+FFFD. -/
def utf8 (r : Nat) : Bytes :=
  if r < 0x80 then [r]
  else if r < 0x800 then [0xC0 + r / 64, 0x80 + r % 64]
  else if 0xD800 ≤ r ∧ r < 0xE000 then [0xEF, 0xBF, 0xBD]
  else if r < 0x10000 then [0xE0 + r / 4096, 0x80 + r / 64 % 64, 0x80 + r % 64]
  else [0xF0 + r / 262144, 0x80 + r / 4096 % 64, 0x80 + r / 64 % 64, 0x80 + r % 64]

/-- The byte a one-letter escape stands for. -/
def escapeByte (c : Nat) : Option Nat :=
  if c = 34 then some 34
  else if c = 92 then some 92
  else if c = 47 then some 47
  else if c = 98 then some 8
  else if c = 102 then some 12
  else if c = 110 then some 10
  else if c = 114 then some 13
  else if c = 116 then some 9
  else none

/-- Whether a byte continues a UTF-8 sequence, within the given bounds. -/
def inRange (lo hi c : Nat) : Bool := lo ≤ c && c ≤ hi

/-- The length of the well-formed UTF-8 sequence at the front of the input, as
`utf8.DecodeRune` accepts it: no overlong form, no surrogate, nothing above
U+10FFFF; 0 when the front byte starts no such sequence. -/
def runeLen : Bytes → Nat
  | [] => 0
  | b0 :: rest =>
    if b0 < 0x80 then 1
    else if inRange 0xC2 0xDF b0 then
      match rest with
      | b1 :: _ => if inRange 0x80 0xBF b1 then 2 else 0
      | _ => 0
    else if inRange 0xE0 0xEF b0 then
      match rest with
      | b1 :: b2 :: _ =>
        if inRange (if b0 = 0xE0 then 0xA0 else 0x80) (if b0 = 0xED then 0x9F else 0xBF) b1
            && inRange 0x80 0xBF b2 then 3
        else 0
      | _ => 0
    else if inRange 0xF0 0xF4 b0 then
      match rest with
      | b1 :: b2 :: b3 :: _ =>
        if inRange (if b0 = 0xF0 then 0x90 else 0x80) (if b0 = 0xF4 then 0x8F else 0xBF) b1
            && inRange 0x80 0xBF b2 && inRange 0x80 0xBF b3 then 4
        else 0
      | _ => 0
    else 0

/-- Reads a string literal after its opening quote: the decoded content (kept
reversed in `acc` while reading) and the input after the closing quote. Control
bytes, unknown escapes and an unterminated literal are rejected. A byte that
is not part of a well-formed UTF-8 sequence is replaced by U+FFFD. -/
def stringBody : Nat → Bytes → Bytes → Option (Bytes × Bytes)
  | 0, _, _ => none
  | _ + 1, [], _ => none
  | fuel + 1, c :: rest, acc =>
    if c = 34 then some (acc.reverse, rest)
    else if c = 92 then
      match rest with
      | [] => none
      | e :: rest1 =>
        if e = 117 then
          match rest1 with
          | a :: b :: c1 :: d :: rest2 =>
            match hex4 a b c1 d with
            | none => none
            | some hi =>
              if 0xD800 ≤ hi ∧ hi < 0xDC00 then
                match rest2 with
                | 92 :: 117 :: a2 :: b2 :: c2 :: d2 :: rest3 =>
                  match hex4 a2 b2 c2 d2 with
                  | none => none
                  | some lo =>
                    if 0xDC00 ≤ lo ∧ lo < 0xE000 then
                      stringBody fuel rest3
                        ((utf8 (0x10000 + (hi - 0xD800) * 1024 + (lo - 0xDC00))).reverse ++ acc)
                    else stringBody fuel rest2 ((utf8 hi).reverse ++ acc)
                | _ => stringBody fuel rest2 ((utf8 hi).reverse ++ acc)
              else stringBody fuel rest2 ((utf8 hi).reverse ++ acc)
          | _ => none
        else
          match escapeByte e with
          | none => none
          | some b => stringBody fuel rest1 (b :: acc)
    else if c < 32 then none
    else if c < 0x80 then stringBody fuel rest (c :: acc)
    else if runeLen (c :: rest) = 0 then stringBody fuel rest (0xBD :: 0xBF :: 0xEF :: acc)
    else
      stringBody fuel (rest.drop (runeLen (c :: rest) - 1))
        (((c :: rest).take (runeLen (c :: rest))).reverse ++ acc)

def takeDigits : Bytes → Bytes × Bytes
  | [] => ([], [])
  | c :: cs =>
    if isDigit c then ((takeDigits cs).1.cons c, (takeDigits cs).2) else ([], c :: cs)

/-- Reads a number literal: optional minus, integer part without a leading
zero, optional fraction, optional exponent. -/
def numberLit (s : Bytes) : Option (Bytes × Bytes) :=
  let (sign, s1) := match s with
    | 45 :: t => ([45], t)
    | _ => ([], s)
  let intPart : Option (Bytes × Bytes) := match s1 with
    | 48 :: t => some ([48], t)
    | c :: t => if isDigit c then some ((takeDigits (c :: t)).1, (takeDigits (c :: t)).2) else none
    | [] => none
  match intPart with
  | none => none
  | some (ip, s2) =>
    let frac : Option (Bytes × Bytes) := match s2 with
      | 46 :: t =>
        match takeDigits t with
        | ([], _) => none
        | (ds, t1) => some (46 :: ds, t1)
      | _ => some ([], s2)
    match frac with
    | none => none
    | some (fp, s3) =>
      let expo : Option (Bytes × Bytes) := match s3 with
        | e :: t =>
          if e = 101 ∨ e = 69 then
            let (sg, t1) := match t with
              | 43 :: u => ([43], u)
              | 45 :: u => ([45], u)
              | _ => ([], t)
            match takeDigits t1 with
            | ([], _) => none
            | (ds, t2) => some (e :: sg ++ ds, t2)
          else some ([], s3)
        | [] => some ([], s3)
      match expo with
      | none => none
      | some (ep, s4) => some (sign ++ ip ++ fp ++ ep, s4)

/-- Removes an expected keyword from the front of the input. -/
def keyword (kw : Bytes) (s : Bytes) : Option Bytes :=
  if kw.isPrefixOf s then some (s.drop kw.length) else none

/-- The deepest nesting of objects and arrays the scanner accepts. -/
def maxNestingDepth : Nat := 10000

mutual

/-- Reads one JSON value, after leading white space; `depth` is the number of
objects and arrays open around it, and a bracket that opens one more than
`maxNestingDepth` is rejected. -/
def value : Nat → Nat → Bytes → Option (Value × Bytes)
  | 0, _, _ => none
  | fuel + 1, depth, s =>
    match skipSpace s with
    | [] => none
    | c :: rest =>
      if c = 123 then
        if maxNestingDepth ≤ depth then none
        else
          match skipSpace rest with
          | 125 :: rest1 => some (Value.object [], rest1)
          | _ => (members fuel (depth + 1) rest []).map (fun r => (Value.object r.1, r.2))
      else if c = 91 then
        if maxNestingDepth ≤ depth then none
        else
          match skipSpace rest with
          | 93 :: rest1 => some (Value.array [], rest1)
          | _ => (elements fuel (depth + 1) rest []).map (fun r => (Value.array r.1, r.2))
      else if c = 34 then
        (stringBody (rest.length + 1) rest []).map (fun r => (Value.string r.1, r.2))
      else if c = 116 then (keyword (ascii "true") (c :: rest)).map (fun r => (Value.bool true, r))
      else if c = 102 then (keyword (ascii "false") (c :: rest)).map (fun r => (Value.bool false, r))
      else if c = 110 then (keyword (ascii "null") (c :: rest)).map (fun r => (Value.null, r))
      else (numberLit (c :: rest)).map (fun r => (Value.number r.1, r.2))

/-- Reads the elements of a non-empty array up to its closing bracket. -/
def elements : Nat → Nat → Bytes → List Value → Option (List Value × Bytes)
  | 0, _, _, _ => none
  | fuel + 1, depth, s, acc =>
    match value fuel depth s with
    | none => none
    | some (v, rest) =>
      match skipSpace rest with
      | 44 :: rest1 => elements fuel depth rest1 (v :: acc)
      | 93 :: rest1 => some ((v :: acc).reverse, rest1)
      | _ => none

/-- Reads the members of a non-empty object up to its closing brace. -/
def members : Nat → Nat → Bytes → List (Bytes × Value) → Option (List (Bytes × Value) × Bytes)
  | 0, _, _, _ => none
  | fuel + 1, depth, s, acc =>
    match skipSpace s with
    | 34 :: rest =>
      match stringBody (rest.length + 1) rest [] with
      | none => none
      | some (key, rest1) =>
        match skipSpace rest1 with
        | 58 :: rest2 =>
          match value fuel depth rest2 with
          | none => none
          | some (v, rest3) =>
            match skipSpace rest3 with
            | 44 :: rest4 => members fuel depth rest4 ((key, v) :: acc)
            | 125 :: rest4 => some (((key, v) :: acc).reverse, rest4)
            | _ => none
        | _ => none
    | _ => none

end

/-- The document a text holds, when the text is one valid JSON value with
nothing but white space around it and no nesting deeper than the scanner
allows (what `checkValid` accepts). -/
def parse (data : Bytes) : Option Value :=
  match value (data.length + 1) 0 data with
  | some (v, rest) => if skipSpace rest = [] then some v else none
  | none => none

end json

/-! ## `strconv`

gjson keeps a number both as its raw text and as the float `strconv.ParseFloat`
reads from it, and prints the float with `strconv.FormatFloat`. A float is
held here as its exact dyadic value, so that reading and printing are exact
integer arithmetic. -/

namespace strconv

/-- A float64 value: not a number, an infinity, or a sign and the magnitude
`mant * 2 ^ exp`. A magnitude is kept in the form of the format: zero is
`mant = 0`, `exp = 0`; a subnormal has `exp = -1074` and `mant < 2 ^ 52`; any
other has `2 ^ 52 ≤ mant < 2 ^ 53` and `-1074 ≤ exp ≤ 971`. -/
inductive Float64 where
  | nan
  | inf (neg : Bool)
  | finite (neg : Bool) (mant : Nat) (exp : Int)
  deriving DecidableEq, Repr

/-- The decimal digits of a number, as bytes. -/
def decimal (n : Nat) : Bytes := (Nat.toDigits 10 n).map Char.toNat

/-- The number of binary digits of a number. -/
def bitLength (n : Nat) : Nat := if n = 0 then 0 else (Nat.toDigits 2 n).length

/-- The magnitude nearest to the fraction `n / d`, ties to the even mantissa;
nothing when the rounded value is beyond the largest float. -/
def round64 (n d : Nat) : Option (Nat × Int) :=
  if n = 0 then some (0, 0)
  else
    let k0 : Int := (bitLength n : Int) - (bitLength d : Int)
    let atLeast : Bool :=
      if 0 ≤ k0 then decide (d * 2 ^ k0.toNat ≤ n) else decide (d ≤ n * 2 ^ (-k0).toNat)
    let k : Int := if atLeast then k0 else k0 - 1
    let e : Int := max (k - 52) (-1074)
    let num : Nat := if 0 ≤ e then n else n * 2 ^ (-e).toNat
    let den : Nat := if 0 ≤ e then d * 2 ^ e.toNat else d
    let q := num / den
    let r := num % den
    let m := if den < 2 * r ∨ (2 * r = den ∧ q % 2 = 1) then q + 1 else q
    let m1 := if m = 2 ^ 53 then 2 ^ 52 else m
    let e1 := if m = 2 ^ 53 then e + 1 else e
    if m1 = 0 then some (0, 0) else if 971 < e1 then none else some (m1, e1)

/-- Shortest digits: walks the decimal positions from `p` downwards and stops
at the first at which the multiple of `10 ^ p` below the value `n / d` or the
one above it rounds back to the float `target`; when both do, the nearer one is
taken, the even one at a tie. Gives the multiple and the position. -/
def shortest : Nat → Nat → Nat → Nat × Int → Int → Nat × Int
  | 0, _, _, _, p => (0, p)
  | fuel + 1, n, d, target, p =>
    let num : Nat := if 0 ≤ p then n else n * 10 ^ (-p).toNat
    let den : Nat := if 0 ≤ p then d * 10 ^ p.toNat else d
    let lo := num / den
    let r := num % den
    let back (c : Nat) : Bool :=
      if 0 ≤ p then decide (round64 (c * 10 ^ p.toNat) 1 = some target)
      else decide (round64 c (10 ^ (-p).toNat) = some target)
    let okdown := back lo
    let okup := back (lo + 1)
    if okdown && okup then
      (if 2 * r < den then lo else if den < 2 * r then lo + 1
        else if lo % 2 = 0 then lo else lo + 1, p)
    else if okdown then (lo, p)
    else if okup then (lo + 1, p)
    else shortest fuel n d target (p - 1)

/-- Drops the zeros at the end of a digit list. -/
def trimZeros (ds : Bytes) : Bytes := (ds.reverse.dropWhile (fun c => c = 48)).reverse

/-- The text of `c * 10 ^ p` in positional notation with no exponent and no
zeros at the end of the fraction. -/
def positional (c : Nat) (p : Int) : Bytes :=
  if 0 ≤ p then decimal (c * 10 ^ p.toNat)
  else
    let k := (-p).toNat
    let whole := decimal (c / 10 ^ k)
    let fracDigits := decimal (c % 10 ^ k)
    let frac := trimZeros (List.replicate (k - fracDigits.length) 48 ++ fracDigits)
    if frac = [] then whole else whole ++ 46 :: frac

/-- The text `FormatFloat(f, 'f', -1, 64)`: the shortest decimal that reads back
as the float, in positional notation. -/
def FormatFloat (f : Float64) : Bytes :=
  match f with
  | Float64.nan => ascii "NaN"
  | Float64.inf false => ascii "+Inf"
  | Float64.inf true => ascii "-Inf"
  | Float64.finite neg mant exp =>
    let sign : Bytes := if neg then [45] else []
    if mant = 0 then sign ++ [48]
    else
      let n : Nat := if 0 ≤ exp then mant * 2 ^ exp.toNat else mant
      let d : Nat := if 0 ≤ exp then 1 else 2 ^ (-exp).toNat
      let p0 : Int := ((decimal n).length : Int) - ((decimal d).length : Int) + 1
      let r := shortest 400 n d (mant, exp) p0
      sign ++ positional r.1 r.2

/-- The byte with bit 0x20 set, `lower`. -/
def lower (c : Nat) : Nat := Nat.lor c 32

/-- Length of the common prefix of a text and a lower-case word, upper-case
letters of the text taken as lower case. -/
def commonPrefixLenIgnoreCase : Bytes → Bytes → Nat
  | c :: s, w :: word =>
    if (if 65 ≤ c ∧ c ≤ 90 then c + 32 else c) = w then commonPrefixLenIgnoreCase s word + 1 else 0
  | _, _ => 0

/-- The infinities and not-a-number at the front of a text (`special`): the
value and the number of bytes read. -/
def special (s : Bytes) : Option (Float64 × Nat) :=
  let infinity (neg : Bool) (nsign : Nat) (t : Bytes) : Option (Float64 × Nat) :=
    let n := commonPrefixLenIgnoreCase t (ascii "infinity")
    let n1 := if 3 < n ∧ n < 8 then 3 else n
    if n1 = 3 ∨ n1 = 8 then some (Float64.inf neg, nsign + n1) else none
  match s with
  | [] => none
  | c :: t =>
    if c = 43 then infinity false 1 t
    else if c = 45 then infinity true 1 t
    else if c = 105 ∨ c = 73 then infinity false 0 (c :: t)
    else if c = 110 ∨ c = 78 then
      if commonPrefixLenIgnoreCase (c :: t) (ascii "nan") = 3 then some (Float64.nan, 3) else none
    else none

/-- What the digit loop of `readFloat` has seen. -/
structure Digits where
  underscores : Bool := false
  sawdot : Bool := false
  sawdigits : Bool := false
  nd : Nat := 0
  ndMant : Nat := 0
  dp : Int := 0
  mantissa : Nat := 0
  trunc : Bool := false
  all : Nat := 0

/-- The digit loop of `readFloat`: digits, underscores and one point; `all`
is the number all significant digits spell, `mantissa` the first
`maxMantDigits` of them. Gives the state and the input left. -/
def readDigits (base maxMantDigits : Nat) : Bytes → Digits → Digits × Bytes
  | [], st => (st, [])
  | c :: rest, st =>
    if c = 95 then readDigits base maxMantDigits rest { st with underscores := true }
    else if c = 46 then
      if st.sawdot then (st, c :: rest)
      else readDigits base maxMantDigits rest { st with sawdot := true, dp := st.nd }
    else if 48 ≤ c ∧ c ≤ 57 then
      if c = 48 ∧ st.nd = 0 then
        readDigits base maxMantDigits rest { st with sawdigits := true, dp := st.dp - 1 }
      else if st.ndMant < maxMantDigits then
        readDigits base maxMantDigits rest
          { st with sawdigits := true, nd := st.nd + 1, ndMant := st.ndMant + 1,
                    mantissa := st.mantissa * base + (c - 48), all := st.all * base + (c - 48) }
      else
        readDigits base maxMantDigits rest
          { st with sawdigits := true, nd := st.nd + 1, all := st.all * base + (c - 48),
                    trunc := st.trunc || decide (c ≠ 48) }
    else if base = 16 ∧ 97 ≤ lower c ∧ lower c ≤ 102 then
      if st.ndMant < maxMantDigits then
        readDigits base maxMantDigits rest
          { st with sawdigits := true, nd := st.nd + 1, ndMant := st.ndMant + 1,
                    mantissa := st.mantissa * 16 + (lower c - 97 + 10),
                    all := st.all * 16 + (lower c - 97 + 10) }
      else
        readDigits base maxMantDigits rest
          { st with sawdigits := true, nd := st.nd + 1,
                    all := st.all * 16 + (lower c - 97 + 10), trunc := true }
    else (st, c :: rest)

/-- The digits of an exponent: the number, which stops growing at 10000, whether
an underscore occurred, and the input left. -/
def readExponent : Bytes → Nat → Bool → Nat × Bool × Bytes
  | [], e, u => (e, u, [])
  | c :: rest, e, u =>
    if c = 95 then readExponent rest e true
    else if 48 ≤ c ∧ c ≤ 57 then readExponent rest (if e < 10000 then e * 10 + (c - 48) else e) u
    else (e, u, c :: rest)

/-- Whether the underscores of a number text sit between digits only
(`underscoreOK`). The last byte seen is `94` at the start, `48` for a digit or
a base prefix, `95` for an underscore and `33` for anything else. -/
def underscoreOK (s : Bytes) : Bool :=
  let s1 := match s with
    | c :: t => if c = 45 ∨ c = 43 then t else s
    | [] => s
  let prefixed : Bool := match s1 with
    | 48 :: c :: _ => lower c = 98 || lower c = 111 || lower c = 120
    | _ => false
  let hex : Bool := match s1 with
    | 48 :: c :: _ => lower c = 120
    | _ => false
  let body := if prefixed then s1.drop 2 else s1
  let step (acc : Option Nat) (c : Nat) : Option Nat :=
    match acc with
    | none => none
    | some saw =>
      if (48 ≤ c ∧ c ≤ 57) ∨ (hex = true ∧ 97 ≤ lower c ∧ lower c ≤ 102) then some 48
      else if c = 95 then (if saw ≠ 48 then none else some 95)
      else if saw = 95 then none
      else some 33
  match body.foldl step (some (if prefixed then 48 else 94)) with
  | none => false
  | some saw => saw ≠ 95

/-- What `readFloat` gives for a text it accepts. -/
structure Read where
  neg : Bool
  hex : Bool
  mantissa : Nat
  trunc : Bool
  exp : Int
  all : Nat
  nd : Nat
  dp : Int
  n : Nat

/-- The number at the front of a text, `readFloat`: sign, digits in base 10 or
after `0x` in base 16, and an exponent, which a hexadecimal number must have. -/
def readFloat (s : Bytes) : Option Read :=
  match s with
  | [] => none
  | c0 :: t0 =>
    let neg : Bool := c0 = 45
    let s1 : Bytes := if c0 = 43 ∨ c0 = 45 then t0 else s
    let hex : Bool := match s1 with
      | 48 :: x :: _ :: _ => lower x = 120
      | _ => false
    let s2 : Bytes := if hex then s1.drop 2 else s1
    let base : Nat := if hex then 16 else 10
    let expChar : Nat := if hex then 112 else 101
    let (st, s3) := readDigits base (if hex then 16 else 19) s2 {}
    if !st.sawdigits then none
    else
      let dp0 : Int := if st.sawdot then st.dp else st.nd
      let dp1 : Int := if hex then dp0 * 4 else dp0
      let ndMant : Nat := if hex then st.ndMant * 4 else st.ndMant
      let tail : Option (Int × Bool × Bytes) :=
        match s3 with
        | c :: s4 =>
          if lower c = expChar then
            match s4 with
            | [] => none
            | sg :: s5 =>
              let esign : Int := if sg = 45 then -1 else 1
              let s6 : Bytes := if sg = 43 ∨ sg = 45 then s5 else s4
              match s6 with
              | d :: _ =>
                if 48 ≤ d ∧ d ≤ 57 then
                  let r := readExponent s6 0 st.underscores
                  some (dp1 + (r.1 : Int) * esign, r.2.1, r.2.2)
                else none
              | [] => none
          else if hex then none else some (dp1, st.underscores, s3)
        | [] => if hex then none else some (dp1, st.underscores, s3)
      match tail with
      | none => none
      | some (dp, underscores, rest) =>
        let n := s.length - rest.length
        if underscores && !underscoreOK (s.take n) then none
        else
          some { neg := neg, hex := hex, mantissa := st.mantissa, trunc := st.trunc,
                 exp := if st.mantissa ≠ 0 then dp - ndMant else 0,
                 all := st.all, nd := st.nd, dp := dp, n := n }

/-- Repeats a step on mantissa and exponent while a condition holds. -/
def loopWhile (cond : Nat → Int → Bool) (step : Nat → Int → Nat × Int) : Nat → Nat → Int → Nat × Int
  | 0, m, e => (m, e)
  | fuel + 1, m, e => if cond m e then loopWhile cond step fuel (step m e).1 (step m e).2 else (m, e)

/-- The float of a hexadecimal mantissa of at most 64 bits and a binary
exponent, `atofHex`: the mantissa is brought to 55 bits, the lowest of which
stands for all bits lost, and rounded on the two lowest. -/
def atofHex (mantissa : Nat) (exp : Int) (neg trunc : Bool) : Float64 :=
  let halve (m : Nat) (e : Int) : Nat × Int := (Nat.lor (m / 2) (m % 2), e + 1)
  let a := loopWhile (fun m _ => decide (m ≠ 0 ∧ m / 2 ^ 54 = 0)) (fun m e => (m * 2, e - 1)) 64
    mantissa (exp + 52)
  let m1 := if trunc then Nat.lor a.1 1 else a.1
  let b := loopWhile (fun m _ => decide (m / 2 ^ 55 ≠ 0)) halve 64 m1 a.2
  let c := loopWhile (fun m e => decide (1 < m ∧ e < -1024)) halve 64 b.1 b.2
  let round := Nat.lor (c.1 % 4) (c.1 / 4 % 2)
  let m2 := c.1 / 4
  let e2 := c.2 + 2
  let m3 := if round = 3 then m2 + 1 else m2
  let m4 := if m3 = 2 ^ 53 then m3 / 2 else m3
  let e4 := if m3 = 2 ^ 53 then e2 + 1 else e2
  if m4 / 2 ^ 52 = 0 then
    (if m4 = 0 then Float64.finite neg 0 0 else Float64.finite neg m4 (-1074))
  else if 1023 < e4 then Float64.inf neg
  else Float64.finite neg m4 (e4 - 52)

/-- The float of a decimal number with the given significant digits and
position of the decimal point, correctly rounded; far outside the range it is
an infinity or zero without further arithmetic. -/
def atofDecimal (neg : Bool) (all nd : Nat) (dp : Int) : Float64 :=
  if all = 0 then Float64.finite neg 0 0
  else if 310 < dp then Float64.inf neg
  else if dp < -330 then Float64.finite neg 0 0
  else
    let k : Int := dp - nd
    let r := if 0 ≤ k then round64 (all * 10 ^ k.toNat) 1 else round64 all (10 ^ (-k).toNat)
    match r with
    | none => Float64.inf neg
    | some (m, e) => Float64.finite neg m e

/-- The float `ParseFloat(s, 64)` returns, its error dropped: the value of a
text that is a number from end to end, an infinity when the number is out of
range, and zero for any other text. -/
def ParseFloat (s : Bytes) : Float64 :=
  match special s with
  | some (f, n) => if n = s.length then f else Float64.finite false 0 0
  | none =>
    match readFloat s with
    | none => Float64.finite false 0 0
    | some r =>
      if r.n ≠ s.length then Float64.finite false 0 0
      else if r.hex then atofHex r.mantissa r.exp r.neg r.trunc
      else atofDecimal r.neg r.all r.nd r.dp

end strconv

/-! ## `gjson`

`ParseData` calls `gjson.Get` with the one-segment path `d`, so the model covers
plain key paths: no dots, wildcards, queries or modifiers. The library scans the
text without validating it, and so does the model. Values that start with a
letter or sign outside JSON (`NaN`, `Infinity`, `+1`) are read differently from
one release of the library to the next and are skipped here as filler bytes. -/

namespace gjson

/-- The kind of a result, `gjson.Type`. -/
inductive ResultType where
  | Null
  | False
  | Number
  | String
  | True
  | JSON
  deriving DecidableEq, Repr

/-- The `gjson.Result` of a lookup: the kind of the value found, its raw text,
for a string its unescaped content and for a number the float the raw text
parses to. The zero value is the result of a lookup that found nothing. -/
structure Result where
  Kind : ResultType := ResultType.Null
  Raw : Bytes := []
  Str : Bytes := []
  Num : strconv.Float64 := strconv.Float64.finite false 0 0
  deriving DecidableEq, Repr

/-- Whether the lookup found a value, `Result.Exists`. -/
def Result.Exists (t : Result) : Bool :=
  decide (t.Kind ≠ ResultType.Null) || decide (t.Raw ≠ [])

/-- Whether a raw text is digits only after an optional minus sign. -/
def plainInteger (raw : Bytes) : Bool :=
  match raw with
  | 45 :: rest => rest.all json.isDigit
  | _ => raw.all json.isDigit

/-- The string form of a result, `Result.String`: the content of a string, the
raw text of an object or array, the literal name of a boolean, and the empty
string for null and for a missing value. A number gives its raw text when that
is a plain integer, and the printed float when it is not or when there is no
raw text. -/
def Result.String (t : Result) : Bytes :=
  match t.Kind with
  | ResultType.Null => []
  | ResultType.False => ascii "false"
  | ResultType.Number =>
    if t.Raw = [] then strconv.FormatFloat t.Num
    else if plainInteger t.Raw then t.Raw
    else strconv.FormatFloat t.Num
  | ResultType.String => t.Str
  | ResultType.JSON => t.Raw
  | ResultType.True => ascii "true"

/-- Scans a string after its opening quote up to the first quote that no
backslash escapes: the bytes in between (escapes kept), whether a backslash
occurred, and the input after the closing quote. -/
def stringEnd : Nat → Bytes → Bytes → Bool → Option (Bytes × Bool × Bytes)
  | 0, _, _, _ => none
  | _ + 1, [], _, _ => none
  | fuel + 1, c :: rest, acc, esc =>
    if c = 34 then some (acc.reverse, esc, rest)
    else if c = 92 then
      match rest with
      | [] => none
      | e :: rest1 => stringEnd fuel rest1 (e :: 92 :: acc) true
    else stringEnd fuel rest (c :: acc) esc

/-- The four hexadecimal digits at the front of the input as a number, 0 when
they are not four hexadecimal digits (`runeit`). -/
def runeit (s : Bytes) : Nat :=
  match s with
  | a :: b :: c :: d :: _ => (json.hex4 a b c d).getD 0
  | _ => 0

/-- Code point of a surrogate pair, U+FFFD when the pair is not one. -/
def decodeRune (hi lo : Nat) : Nat :=
  if 0xD800 ≤ hi ∧ hi < 0xDC00 ∧ 0xDC00 ≤ lo ∧ lo < 0xE000 then
    0x10000 + (hi - 0xD800) * 1024 + (lo - 0xDC00)
  else 0xFFFD

/-- Resolves the escapes of a string content (`unescape`); stops at a control
byte or at an escape it does not know and keeps what it has read so far. -/
def unescape : Nat → Bytes → Bytes → Bytes
  | 0, _, acc => acc.reverse
  | _ + 1, [], acc => acc.reverse
  | fuel + 1, c :: rest, acc =>
    if c < 32 then acc.reverse
    else if c = 92 then
      match rest with
      | [] => acc.reverse
      | e :: rest1 =>
        if e = 117 then
          if rest1.length < 4 then acc.reverse
          else
            let r := runeit rest1
            let rest2 := rest1.drop 4
            if 0xD800 ≤ r ∧ r < 0xE000 then
              match rest2 with
              | 92 :: 117 :: a :: b :: c1 :: d :: rest3 =>
                unescape fuel rest3 ((json.utf8 (decodeRune r (runeit [a, b, c1, d]))).reverse ++ acc)
              | _ => unescape fuel rest2 ((json.utf8 r).reverse ++ acc)
            else unescape fuel rest2 ((json.utf8 r).reverse ++ acc)
        else
          match json.escapeByte e with
          | some b => unescape fuel rest1 (b :: acc)
          | none => acc.reverse
    else unescape fuel rest (c :: acc)

/-- Where `parseSquash` stands: between tokens, inside a string, or right after
a backslash inside a string. -/
inductive SquashState where
  | code
  | str
  | esc

/-- Reads an object or array after its opening bracket without looking inside
(`parseSquash`): brackets of any kind are counted, strings are skipped, and the
value ends where the count returns to zero or the input ends. Gives the bytes
read and the input after them. -/
def squash : Bytes → Nat → SquashState → Bytes → Bytes × Bytes
  | [], _, _, acc => (acc.reverse, [])
  | c :: rest, depth, st, acc =>
    match st with
    | SquashState.esc => squash rest depth SquashState.str (c :: acc)
    | SquashState.str =>
      if c = 92 then squash rest depth SquashState.esc (c :: acc)
      else if c = 34 then squash rest depth SquashState.code (c :: acc)
      else squash rest depth SquashState.str (c :: acc)
    | SquashState.code =>
      if c = 34 then squash rest depth SquashState.str (c :: acc)
      else if c = 123 ∨ c = 91 ∨ c = 40 then squash rest (depth + 1) SquashState.code (c :: acc)
      else if c = 125 ∨ c = 93 ∨ c = 41 then
        if depth ≤ 1 then ((c :: acc).reverse, rest)
        else squash rest (depth - 1) SquashState.code (c :: acc)
      else squash rest depth SquashState.code (c :: acc)

/-- The lower-case letters after the first byte of a literal (`parseLiteral`). -/
def literalTail : Bytes → Bytes × Bytes
  | [] => ([], [])
  | c :: rest =>
    if c < 97 ∨ 122 < c then ([], c :: rest)
    else ((literalTail rest).1.cons c, (literalTail rest).2)

/-- The bytes after the first byte of a number, up to white space, a comma or a
closing bracket (`parseNumber`). -/
def numberTail : Bytes → Bytes × Bytes
  | [] => ([], [])
  | c :: rest =>
    if c ≤ 32 ∨ c = 44 ∨ c = 93 ∨ c = 125 then ([], c :: rest)
    else ((numberTail rest).1.cons c, (numberTail rest).2)

/-- Skips to the opening quote of the next key and gives the input after it;
nothing when the object closes or the input ends first. -/
def findKey : Bytes → Option Bytes
  | [] => none
  | c :: rest => if c = 34 then some rest else if c = 125 then none else findKey rest

/-- Whether a byte starts a value: a quote, an opening bracket, `t`, `f`, `n`,
a minus sign or a digit. -/
def startsValue (c : Nat) : Bool :=
  c = 34 || c = 123 || c = 91 || c = 116 || c = 102 || c = 110 || c = 45 || json.isDigit c

/-- Skips to the first byte that starts a value. -/
def findValue : Bytes → Bytes
  | [] => []
  | c :: rest => if startsValue c then c :: rest else findValue rest

/-- Walks the members of an object after its opening brace (`parseObject`) and
gives the value of the first member whose key is `path`. -/
def parseObject : Nat → Bytes → Bytes → Result
  | 0, _, _ => {}
  | fuel + 1, s, path =>
    match findKey s with
    | none => {}
    | some afterQuote =>
      match stringEnd (afterQuote.length + 1) afterQuote [] false with
      | none => {}
      | some (key, kesc, afterKey) =>
        let hit : Bool := if kesc then path = unescape (key.length + 1) key [] else path = key
        match findValue afterKey with
        | [] => {}
        | c :: rest =>
          if c = 34 then
            match stringEnd (rest.length + 1) rest [] false with
            | none => {}
            | some (content, vesc, after) =>
              if hit then
                { Kind := ResultType.String
                  Raw := 34 :: content ++ [34]
                  Str := if vesc then unescape (content.length + 1) content [] else content }
              else parseObject fuel after path
          else if c = 123 ∨ c = 91 then
            if hit then { Kind := ResultType.JSON, Raw := c :: (squash rest 1 SquashState.code []).1 }
            else parseObject fuel (squash rest 1 SquashState.code []).2 path
          else if c = 116 ∨ c = 102 ∨ c = 110 then
            if hit then
              { Kind := if c = 116 then ResultType.True
                        else if c = 102 then ResultType.False else ResultType.Null
                Raw := c :: (literalTail rest).1 }
            else parseObject fuel (literalTail rest).2 path
          else
            if hit then
              { Kind := ResultType.Number
                Raw := c :: (numberTail rest).1
                Num := strconv.ParseFloat (c :: (numberTail rest).1) }
            else parseObject fuel (numberTail rest).2 path

/-- Model of `gjson.Get` for a plain key: the scan starts at the first opening
brace or bracket of the text; an object is searched for the key, an array has
no member under a key, and a text without either holds nothing. -/
def Get (json path : Bytes) : Result :=
  match json.dropWhile (fun c => decide (c ≠ 123 ∧ c ≠ 91)) with
  | c :: rest => if c = 123 then parseObject (rest.length + 1) rest path else {}
  | [] => {}

/-- What a number result of a lookup carries: a raw text that is not empty, and
the float `strconv.ParseFloat` reads from that text. -/
def NumberRead (r : Result) : Prop :=
  r.Kind = ResultType.Number → r.Raw ≠ [] ∧ r.Num = strconv.ParseFloat r.Raw

end gjson

/-! ## Target shapes and `json.Unmarshal` -/

/-- A Go record type that `json.Unmarshal` can fill: its values, the value of
the composite literal `T{}`, and what reflection-driven decoding of a valid
document does to a value of the type (the value afterwards and the error
reported, a type mismatch leaving other fields decoded). -/
structure Shape where
  T : Type
  zero : T
  decode : json.Value → T → T × Option GoError

/-- Decoding of a text into a target, `json.Unmarshal`: the text is checked
first, and a text that is not valid JSON is a syntax error that leaves the
target as it was; a valid document is decoded as the target type prescribes. -/
def json.Unmarshal (shape : Shape) (data : Bytes) (target : shape.T) : shape.T × Option GoError :=
  match json.parse data with
  | none => (target, some GoError.SyntaxError)
  | some v => shape.decode v target

/-! ## `event.go` -/

/-- ParseData of event.go: takes the value under the key `d` of the message
with gjson, and decodes the string form of that value into the target. The
result is the target after the call and the error returned. -/
def ParseData (shape : Shape) (message : Bytes) (target : shape.T) : shape.T × Option GoError :=
  let data := gjson.Get message (ascii "d")
  json.Unmarshal shape data.String target

/-! ## Package `dto` and the handler registry

`event.go` uses the opcode and event-type constants, the payload and the record
types of package `dto`, and the registry `DefaultHandlers`; their declarations
are in other files of the repository. -/

namespace dto

/-- Modelled from the spec: the operation code of an envelope, `dto.OPCode`, an
integer type. -/
abbrev OPCode := Int

/-- Modelled from the spec: the primary dispatch operation code,
`dto.WSDispatchEvent`, the first of the opcode constants. -/
def WSDispatchEvent : OPCode := 0

/-- Modelled from the spec: the event-type tag of an envelope, `dto.EventType`.
The type is a string type with one named constant per known tag. The constants
that key the routing table are pairwise different, or the table literal would
not compile; each is a constructor here, and `other` holds a tag that is none
of them. -/
inductive EventType where
  | EventGuildCreate
  | EventGuildUpdate
  | EventGuildDelete
  | EventChannelCreate
  | EventChannelUpdate
  | EventChannelDelete
  | EventGuildMemberAdd
  | EventGuildMemberUpdate
  | EventGuildMemberRemove
  | EventMessageCreate
  | EventMessageDelete
  | EventMessageReactionAdd
  | EventMessageReactionRemove
  | EventAtMessageCreate
  | EventPublicMessageDelete
  | EventDirectMessageCreate
  | EventDirectMessageDelete
  | EventAudioStart
  | EventAudioFinish
  | EventAudioOnMic
  | EventAudioOffMic
  | EventMessageAuditPass
  | EventMessageAuditReject
  | EventForumThreadCreate
  | EventForumThreadUpdate
  | EventForumThreadDelete
  | EventForumPostCreate
  | EventForumPostDelete
  | EventForumReplyCreate
  | EventForumReplyDelete
  | EventForumAuditResult
  | EventInteractionCreate
  | EventC2CMessageCreate
  | EventGroupAtMessageCreate
  | other (tag : String)
  deriving DecidableEq, Repr

/-- Modelled from the spec: the envelope, `dto.WSPayload`, with the fields that
dispatch reads: operation code, event type (the field `Type`) and the raw bytes
of the frame. -/
structure WSPayload where
  OPCode : OPCode
  Type_ : EventType
  RawMessage : Bytes
  deriving DecidableEq, Repr

/-- Modelled from the spec: the typed event records of package `dto`, one shape
per category; the field lists of the records are not needed for dispatch. -/
structure Records where
  WSGuildData : Shape
  WSChannelData : Shape
  WSGuildMemberData : Shape
  WSMessageData : Shape
  WSMessageDeleteData : Shape
  WSMessageReactionData : Shape
  WSATMessageData : Shape
  WSPublicMessageDeleteData : Shape
  WSDirectMessageData : Shape
  WSDirectMessageDeleteData : Shape
  WSAudioData : Shape
  WSThreadData : Shape
  WSPostData : Shape
  WSReplyData : Shape
  WSForumAuditData : Shape
  WSMessageAuditData : Shape
  WSInteractionData : Shape
  WSC2CMessageData : Shape
  WSGroupATMessageData : Shape

end dto

/-- The event categories: one per slot of the registry that takes a typed
record. -/
inductive Category where
  | Guild
  | Channel
  | GuildMember
  | Message
  | MessageDelete
  | MessageReaction
  | ATMessage
  | PublicMessageDelete
  | DirectMessage
  | DirectMessageDelete
  | Audio
  | Thread
  | Post
  | Reply
  | ForumAudit
  | MessageAudit
  | Interaction
  | C2CMessage
  | GroupATMessage
  deriving DecidableEq, Repr

/-- The record shape of a category. -/
def Category.shape (D : dto.Records) : Category → Shape
  | Category.Guild => D.WSGuildData
  | Category.Channel => D.WSChannelData
  | Category.GuildMember => D.WSGuildMemberData
  | Category.Message => D.WSMessageData
  | Category.MessageDelete => D.WSMessageDeleteData
  | Category.MessageReaction => D.WSMessageReactionData
  | Category.ATMessage => D.WSATMessageData
  | Category.PublicMessageDelete => D.WSPublicMessageDeleteData
  | Category.DirectMessage => D.WSDirectMessageData
  | Category.DirectMessageDelete => D.WSDirectMessageDeleteData
  | Category.Audio => D.WSAudioData
  | Category.Thread => D.WSThreadData
  | Category.Post => D.WSPostData
  | Category.Reply => D.WSReplyData
  | Category.ForumAudit => D.WSForumAuditData
  | Category.MessageAudit => D.WSMessageAuditData
  | Category.Interaction => D.WSInteractionData
  | Category.C2CMessage => D.WSC2CMessageData
  | Category.GroupATMessage => D.WSGroupATMessageData

/-- The result of a callback: `none` for a nil error. -/
abbrev Callback (α : Type) := dto.WSPayload → α → Option GoError

/-- Modelled from the spec: the handler registry behind `DefaultHandlers`: one
optional callback per category and the optional passthrough callback `Plain`,
all empty at the start. A callback is a function of its two arguments to the
error it returns. -/
structure Handlers (D : dto.Records) where
  Plain : Option (Callback Bytes) := none
  Guild : Option (Callback D.WSGuildData.T) := none
  Channel : Option (Callback D.WSChannelData.T) := none
  GuildMember : Option (Callback D.WSGuildMemberData.T) := none
  Message : Option (Callback D.WSMessageData.T) := none
  MessageDelete : Option (Callback D.WSMessageDeleteData.T) := none
  MessageReaction : Option (Callback D.WSMessageReactionData.T) := none
  ATMessage : Option (Callback D.WSATMessageData.T) := none
  PublicMessageDelete : Option (Callback D.WSPublicMessageDeleteData.T) := none
  DirectMessage : Option (Callback D.WSDirectMessageData.T) := none
  DirectMessageDelete : Option (Callback D.WSDirectMessageDeleteData.T) := none
  Audio : Option (Callback D.WSAudioData.T) := none
  Thread : Option (Callback D.WSThreadData.T) := none
  Post : Option (Callback D.WSPostData.T) := none
  Reply : Option (Callback D.WSReplyData.T) := none
  ForumAudit : Option (Callback D.WSForumAuditData.T) := none
  MessageAudit : Option (Callback D.WSMessageAuditData.T) := none
  Interaction : Option (Callback D.WSInteractionData.T) := none
  C2CMessage : Option (Callback D.WSC2CMessageData.T) := none
  GroupATMessage : Option (Callback D.WSGroupATMessageData.T) := none

/-- The slot of a category in the registry. -/
def Handlers.slot {D : dto.Records} (H : Handlers D) : (c : Category) → Option (Callback (c.shape D).T)
  | Category.Guild => H.Guild
  | Category.Channel => H.Channel
  | Category.GuildMember => H.GuildMember
  | Category.Message => H.Message
  | Category.MessageDelete => H.MessageDelete
  | Category.MessageReaction => H.MessageReaction
  | Category.ATMessage => H.ATMessage
  | Category.PublicMessageDelete => H.PublicMessageDelete
  | Category.DirectMessage => H.DirectMessage
  | Category.DirectMessageDelete => H.DirectMessageDelete
  | Category.Audio => H.Audio
  | Category.Thread => H.Thread
  | Category.Post => H.Post
  | Category.Reply => H.Reply
  | Category.ForumAudit => H.ForumAudit
  | Category.MessageAudit => H.MessageAudit
  | Category.Interaction => H.Interaction
  | Category.C2CMessage => H.C2CMessage
  | Category.GroupATMessage => H.GroupATMessage

/-- One invocation of a callback, with the arguments it received. -/
inductive Call (D : dto.Records) where
  | Plain (payload : dto.WSPayload) (message : Bytes)
  | Event (c : Category) (payload : dto.WSPayload) (data : (c.shape D).T)

/-- Whether an invocation is one of the passthrough callback. -/
def Call.isPlain {D : dto.Records} : Call D → Bool
  | Call.Plain _ _ => true
  | Call.Event _ _ _ => false

/-- What one dispatch did: the error returned (`none` for nil), the target
shapes `ParseData` was called with, and the callbacks invoked, both in order. -/
structure Outcome (D : dto.Records) where
  err : Option GoError
  parsed : List Category
  calls : List (Call D)

/-- The type eventParseFunc; the registry a routine reads is passed in. -/
abbrev eventParseFunc (D : dto.Records) := Handlers D → dto.WSPayload → Bytes → Outcome D

def guildHandler (D : dto.Records) : eventParseFunc D := fun DefaultHandlers payload message =>
  let data := ParseData D.WSGuildData message D.WSGuildData.zero
  match data.2 with
  | some err => ⟨some err, [Category.Guild], []⟩
  | none =>
    match DefaultHandlers.Guild with
    | some callback =>
      ⟨callback payload data.1, [Category.Guild], [Call.Event Category.Guild payload data.1]⟩
    | none => ⟨none, [Category.Guild], []⟩

def channelHandler (D : dto.Records) : eventParseFunc D := fun DefaultHandlers payload message =>
  let data := ParseData D.WSChannelData message D.WSChannelData.zero
  match data.2 with
  | some err => ⟨some err, [Category.Channel], []⟩
  | none =>
    match DefaultHandlers.Channel with
    | some callback =>
      ⟨callback payload data.1, [Category.Channel], [Call.Event Category.Channel payload data.1]⟩
    | none => ⟨none, [Category.Channel], []⟩

def guildMemberHandler (D : dto.Records) : eventParseFunc D := fun DefaultHandlers payload message =>
  let data := ParseData D.WSGuildMemberData message D.WSGuildMemberData.zero
  match data.2 with
  | some err => ⟨some err, [Category.GuildMember], []⟩
  | none =>
    match DefaultHandlers.GuildMember with
    | some callback =>
      ⟨callback payload data.1, [Category.GuildMember], [Call.Event Category.GuildMember payload data.1]⟩
    | none => ⟨none, [Category.GuildMember], []⟩

def messageHandler (D : dto.Records) : eventParseFunc D := fun DefaultHandlers payload message =>
  let data := ParseData D.WSMessageData message D.WSMessageData.zero
  match data.2 with
  | some err => ⟨some err, [Category.Message], []⟩
  | none =>
    match DefaultHandlers.Message with
    | some callback =>
      ⟨callback payload data.1, [Category.Message], [Call.Event Category.Message payload data.1]⟩
    | none => ⟨none, [Category.Message], []⟩

def messageDeleteHandler (D : dto.Records) : eventParseFunc D := fun DefaultHandlers payload message =>
  let data := ParseData D.WSMessageDeleteData message D.WSMessageDeleteData.zero
  match data.2 with
  | some err => ⟨some err, [Category.MessageDelete], []⟩
  | none =>
    match DefaultHandlers.MessageDelete with
    | some callback =>
      ⟨callback payload data.1, [Category.MessageDelete], [Call.Event Category.MessageDelete payload data.1]⟩
    | none => ⟨none, [Category.MessageDelete], []⟩

def messageReactionHandler (D : dto.Records) : eventParseFunc D := fun DefaultHandlers payload message =>
  let data := ParseData D.WSMessageReactionData message D.WSMessageReactionData.zero
  match data.2 with
  | some err => ⟨some err, [Category.MessageReaction], []⟩
  | none =>
    match DefaultHandlers.MessageReaction with
    | some callback =>
      ⟨callback payload data.1, [Category.MessageReaction], [Call.Event Category.MessageReaction payload data.1]⟩
    | none => ⟨none, [Category.MessageReaction], []⟩

def atMessageHandler (D : dto.Records) : eventParseFunc D := fun DefaultHandlers payload message =>
  let data := ParseData D.WSATMessageData message D.WSATMessageData.zero
  match data.2 with
  | some err => ⟨some err, [Category.ATMessage], []⟩
  | none =>
    match DefaultHandlers.ATMessage with
    | some callback =>
      ⟨callback payload data.1, [Category.ATMessage], [Call.Event Category.ATMessage payload data.1]⟩
    | none => ⟨none, [Category.ATMessage], []⟩

def publicMessageDeleteHandler (D : dto.Records) : eventParseFunc D := fun DefaultHandlers payload message =>
  let data := ParseData D.WSPublicMessageDeleteData message D.WSPublicMessageDeleteData.zero
  match data.2 with
  | some err => ⟨some err, [Category.PublicMessageDelete], []⟩
  | none =>
    match DefaultHandlers.PublicMessageDelete with
    | some callback =>
      ⟨callback payload data.1, [Category.PublicMessageDelete], [Call.Event Category.PublicMessageDelete payload data.1]⟩
    | none => ⟨none, [Category.PublicMessageDelete], []⟩

def directMessageHandler (D : dto.Records) : eventParseFunc D := fun DefaultHandlers payload message =>
  let data := ParseData D.WSDirectMessageData message D.WSDirectMessageData.zero
  match data.2 with
  | some err => ⟨some err, [Category.DirectMessage], []⟩
  | none =>
    match DefaultHandlers.DirectMessage with
    | some callback =>
      ⟨callback payload data.1, [Category.DirectMessage], [Call.Event Category.DirectMessage payload data.1]⟩
    | none => ⟨none, [Category.DirectMessage], []⟩

def directMessageDeleteHandler (D : dto.Records) : eventParseFunc D := fun DefaultHandlers payload message =>
  let data := ParseData D.WSDirectMessageDeleteData message D.WSDirectMessageDeleteData.zero
  match data.2 with
  | some err => ⟨some err, [Category.DirectMessageDelete], []⟩
  | none =>
    match DefaultHandlers.DirectMessageDelete with
    | some callback =>
      ⟨callback payload data.1, [Category.DirectMessageDelete], [Call.Event Category.DirectMessageDelete payload data.1]⟩
    | none => ⟨none, [Category.DirectMessageDelete], []⟩

def audioHandler (D : dto.Records) : eventParseFunc D := fun DefaultHandlers payload message =>
  let data := ParseData D.WSAudioData message D.WSAudioData.zero
  match data.2 with
  | some err => ⟨some err, [Category.Audio], []⟩
  | none =>
    match DefaultHandlers.Audio with
    | some callback =>
      ⟨callback payload data.1, [Category.Audio], [Call.Event Category.Audio payload data.1]⟩
    | none => ⟨none, [Category.Audio], []⟩

def threadHandler (D : dto.Records) : eventParseFunc D := fun DefaultHandlers payload message =>
  let data := ParseData D.WSThreadData message D.WSThreadData.zero
  match data.2 with
  | some err => ⟨some err, [Category.Thread], []⟩
  | none =>
    match DefaultHandlers.Thread with
    | some callback =>
      ⟨callback payload data.1, [Category.Thread], [Call.Event Category.Thread payload data.1]⟩
    | none => ⟨none, [Category.Thread], []⟩

def postHandler (D : dto.Records) : eventParseFunc D := fun DefaultHandlers payload message =>
  let data := ParseData D.WSPostData message D.WSPostData.zero
  match data.2 with
  | some err => ⟨some err, [Category.Post], []⟩
  | none =>
    match DefaultHandlers.Post with
    | some callback =>
      ⟨callback payload data.1, [Category.Post], [Call.Event Category.Post payload data.1]⟩
    | none => ⟨none, [Category.Post], []⟩

def replyHandler (D : dto.Records) : eventParseFunc D := fun DefaultHandlers payload message =>
  let data := ParseData D.WSReplyData message D.WSReplyData.zero
  match data.2 with
  | some err => ⟨some err, [Category.Reply], []⟩
  | none =>
    match DefaultHandlers.Reply with
    | some callback =>
      ⟨callback payload data.1, [Category.Reply], [Call.Event Category.Reply payload data.1]⟩
    | none => ⟨none, [Category.Reply], []⟩

def forumAuditHandler (D : dto.Records) : eventParseFunc D := fun DefaultHandlers payload message =>
  let data := ParseData D.WSForumAuditData message D.WSForumAuditData.zero
  match data.2 with
  | some err => ⟨some err, [Category.ForumAudit], []⟩
  | none =>
    match DefaultHandlers.ForumAudit with
    | some callback =>
      ⟨callback payload data.1, [Category.ForumAudit], [Call.Event Category.ForumAudit payload data.1]⟩
    | none => ⟨none, [Category.ForumAudit], []⟩

def messageAuditHandler (D : dto.Records) : eventParseFunc D := fun DefaultHandlers payload message =>
  let data := ParseData D.WSMessageAuditData message D.WSMessageAuditData.zero
  match data.2 with
  | some err => ⟨some err, [Category.MessageAudit], []⟩
  | none =>
    match DefaultHandlers.MessageAudit with
    | some callback =>
      ⟨callback payload data.1, [Category.MessageAudit], [Call.Event Category.MessageAudit payload data.1]⟩
    | none => ⟨none, [Category.MessageAudit], []⟩

def interactionHandler (D : dto.Records) : eventParseFunc D := fun DefaultHandlers payload message =>
  let data := ParseData D.WSInteractionData message D.WSInteractionData.zero
  match data.2 with
  | some err => ⟨some err, [Category.Interaction], []⟩
  | none =>
    match DefaultHandlers.Interaction with
    | some callback =>
      ⟨callback payload data.1, [Category.Interaction], [Call.Event Category.Interaction payload data.1]⟩
    | none => ⟨none, [Category.Interaction], []⟩

def c2cMessageHandler (D : dto.Records) : eventParseFunc D := fun DefaultHandlers payload message =>
  let data := ParseData D.WSC2CMessageData message D.WSC2CMessageData.zero
  match data.2 with
  | some err => ⟨some err, [Category.C2CMessage], []⟩
  | none =>
    match DefaultHandlers.C2CMessage with
    | some callback =>
      ⟨callback payload data.1, [Category.C2CMessage], [Call.Event Category.C2CMessage payload data.1]⟩
    | none => ⟨none, [Category.C2CMessage], []⟩

def groupAtMessageHandler (D : dto.Records) : eventParseFunc D := fun DefaultHandlers payload message =>
  let data := ParseData D.WSGroupATMessageData message D.WSGroupATMessageData.zero
  match data.2 with
  | some err => ⟨some err, [Category.GroupATMessage], []⟩
  | none =>
    match DefaultHandlers.GroupATMessage with
    | some callback =>
      ⟨callback payload data.1, [Category.GroupATMessage], [Call.Event Category.GroupATMessage payload data.1]⟩
    | none => ⟨none, [Category.GroupATMessage], []⟩

/-- The routing table eventParseFuncMap: operation code, then event type, to
the routine; a map literal as the list of its entries. -/
def eventParseFuncMap (D : dto.Records) : List (dto.OPCode × List (dto.EventType × eventParseFunc D)) :=
  [(dto.WSDispatchEvent,
    [(dto.EventType.EventGuildCreate, guildHandler D),
     (dto.EventType.EventGuildUpdate, guildHandler D),
     (dto.EventType.EventGuildDelete, guildHandler D),
     (dto.EventType.EventChannelCreate, channelHandler D),
     (dto.EventType.EventChannelUpdate, channelHandler D),
     (dto.EventType.EventChannelDelete, channelHandler D),
     (dto.EventType.EventGuildMemberAdd, guildMemberHandler D),
     (dto.EventType.EventGuildMemberUpdate, guildMemberHandler D),
     (dto.EventType.EventGuildMemberRemove, guildMemberHandler D),
     (dto.EventType.EventMessageCreate, messageHandler D),
     (dto.EventType.EventMessageDelete, messageDeleteHandler D),
     (dto.EventType.EventMessageReactionAdd, messageReactionHandler D),
     (dto.EventType.EventMessageReactionRemove, messageReactionHandler D),
     (dto.EventType.EventAtMessageCreate, atMessageHandler D),
     (dto.EventType.EventPublicMessageDelete, publicMessageDeleteHandler D),
     (dto.EventType.EventDirectMessageCreate, directMessageHandler D),
     (dto.EventType.EventDirectMessageDelete, directMessageDeleteHandler D),
     (dto.EventType.EventAudioStart, audioHandler D),
     (dto.EventType.EventAudioFinish, audioHandler D),
     (dto.EventType.EventAudioOnMic, audioHandler D),
     (dto.EventType.EventAudioOffMic, audioHandler D),
     (dto.EventType.EventMessageAuditPass, messageAuditHandler D),
     (dto.EventType.EventMessageAuditReject, messageAuditHandler D),
     (dto.EventType.EventForumThreadCreate, threadHandler D),
     (dto.EventType.EventForumThreadUpdate, threadHandler D),
     (dto.EventType.EventForumThreadDelete, threadHandler D),
     (dto.EventType.EventForumPostCreate, postHandler D),
     (dto.EventType.EventForumPostDelete, postHandler D),
     (dto.EventType.EventForumReplyCreate, replyHandler D),
     (dto.EventType.EventForumReplyDelete, replyHandler D),
     (dto.EventType.EventForumAuditResult, forumAuditHandler D),
     (dto.EventType.EventInteractionCreate, interactionHandler D),
     (dto.EventType.EventC2CMessageCreate, c2cMessageHandler D),
     (dto.EventType.EventGroupAtMessageCreate, groupAtMessageHandler D)])]

/-- The two-level lookup `eventParseFuncMap[op][t]`; a missing operation code
gives the nil map, in which no event type is found. -/
def lookupRoutine (D : dto.Records) (op : dto.OPCode) (t : dto.EventType) : Option (eventParseFunc D) :=
  match (eventParseFuncMap D).lookup op with
  | some m => m.lookup t
  | none => none

/-- ParseAndHandle of event.go: the routine of the pair when the table has one,
else the passthrough callback when it is set, else nothing. -/
def ParseAndHandle {D : dto.Records} (DefaultHandlers : Handlers D) (payload : dto.WSPayload) : Outcome D :=
  match lookupRoutine D payload.OPCode payload.Type_ with
  | some h => h DefaultHandlers payload payload.RawMessage
  | none =>
    match DefaultHandlers.Plain with
    | some plain =>
      ⟨plain payload payload.RawMessage, [], [Call.Plain payload payload.RawMessage]⟩
    | none => ⟨none, [], []⟩

/-- The routine that serves a category: the one that decodes into the record of
the category and reads its slot. -/
def routineOf (D : dto.Records) : Category → eventParseFunc D
  | Category.Guild => guildHandler D
  | Category.Channel => channelHandler D
  | Category.GuildMember => guildMemberHandler D
  | Category.Message => messageHandler D
  | Category.MessageDelete => messageDeleteHandler D
  | Category.MessageReaction => messageReactionHandler D
  | Category.ATMessage => atMessageHandler D
  | Category.PublicMessageDelete => publicMessageDeleteHandler D
  | Category.DirectMessage => directMessageHandler D
  | Category.DirectMessageDelete => directMessageDeleteHandler D
  | Category.Audio => audioHandler D
  | Category.Thread => threadHandler D
  | Category.Post => postHandler D
  | Category.Reply => replyHandler D
  | Category.ForumAudit => forumAuditHandler D
  | Category.MessageAudit => messageAuditHandler D
  | Category.Interaction => interactionHandler D
  | Category.C2CMessage => c2cMessageHandler D
  | Category.GroupATMessage => groupAtMessageHandler D

/-- The decode-and-dispatch routine of a category as the specification
describes it: decode the body into the record of the category and stop at a
decode error; call the slot of the category when it is populated; succeed
without a call when it is empty. -/
def routine (D : dto.Records) (c : Category) : eventParseFunc D := fun DefaultHandlers payload message =>
  let data := ParseData (c.shape D) message (c.shape D).zero
  match data.2 with
  | some err => ⟨some err, [c], []⟩
  | none =>
    match DefaultHandlers.slot c with
    | some callback => ⟨callback payload data.1, [c], [Call.Event c payload data.1]⟩
    | none => ⟨none, [c], []⟩

/-- The category the routing table gives an event type under the dispatch
operation code, read off the entries of eventParseFuncMap. -/
def tableCategory : dto.EventType → Option Category
  | dto.EventType.EventGuildCreate => some Category.Guild
  | dto.EventType.EventGuildUpdate => some Category.Guild
  | dto.EventType.EventGuildDelete => some Category.Guild
  | dto.EventType.EventChannelCreate => some Category.Channel
  | dto.EventType.EventChannelUpdate => some Category.Channel
  | dto.EventType.EventChannelDelete => some Category.Channel
  | dto.EventType.EventGuildMemberAdd => some Category.GuildMember
  | dto.EventType.EventGuildMemberUpdate => some Category.GuildMember
  | dto.EventType.EventGuildMemberRemove => some Category.GuildMember
  | dto.EventType.EventMessageCreate => some Category.Message
  | dto.EventType.EventMessageDelete => some Category.MessageDelete
  | dto.EventType.EventMessageReactionAdd => some Category.MessageReaction
  | dto.EventType.EventMessageReactionRemove => some Category.MessageReaction
  | dto.EventType.EventAtMessageCreate => some Category.ATMessage
  | dto.EventType.EventPublicMessageDelete => some Category.PublicMessageDelete
  | dto.EventType.EventDirectMessageCreate => some Category.DirectMessage
  | dto.EventType.EventDirectMessageDelete => some Category.DirectMessageDelete
  | dto.EventType.EventAudioStart => some Category.Audio
  | dto.EventType.EventAudioFinish => some Category.Audio
  | dto.EventType.EventAudioOnMic => some Category.Audio
  | dto.EventType.EventAudioOffMic => some Category.Audio
  | dto.EventType.EventMessageAuditPass => some Category.MessageAudit
  | dto.EventType.EventMessageAuditReject => some Category.MessageAudit
  | dto.EventType.EventForumThreadCreate => some Category.Thread
  | dto.EventType.EventForumThreadUpdate => some Category.Thread
  | dto.EventType.EventForumThreadDelete => some Category.Thread
  | dto.EventType.EventForumPostCreate => some Category.Post
  | dto.EventType.EventForumPostDelete => some Category.Post
  | dto.EventType.EventForumReplyCreate => some Category.Reply
  | dto.EventType.EventForumReplyDelete => some Category.Reply
  | dto.EventType.EventForumAuditResult => some Category.ForumAudit
  | dto.EventType.EventInteractionCreate => some Category.Interaction
  | dto.EventType.EventC2CMessageCreate => some Category.C2CMessage
  | dto.EventType.EventGroupAtMessageCreate => some Category.GroupATMessage
  | dto.EventType.other _ => none

/-! ## A concrete record type -/

/-- Modelled from the spec: the message record of the concrete scenario of the
specification, with its two string fields `id` and `content`. -/
structure MessageRecord where
  ID : Bytes
  Content : Bytes
  deriving DecidableEq, Repr

/-- Lower case of an ASCII letter. -/
def lowerByte (c : Nat) : Nat := if 65 ≤ c ∧ c ≤ 90 then c + 32 else c

/-- Whether a key of the document names the field with the given lower-case
tag; the match ignores the case of the key. -/
def keyIs (tag key : Bytes) : Bool := key.map lowerByte = tag

/-- Decoding of a value into a string field: a string is stored, null leaves
the field, anything else is a type error and leaves the field. -/
def stringField (old : Bytes) (v : json.Value) : Bytes × Option GoError :=
  match v with
  | json.Value.string s => (s, none)
  | json.Value.null => (old, none)
  | json.Value.bool _ => (old, some (GoError.UnmarshalTypeError "bool"))
  | json.Value.number _ => (old, some (GoError.UnmarshalTypeError "number"))
  | json.Value.array _ => (old, some (GoError.UnmarshalTypeError "array"))
  | json.Value.object _ => (old, some (GoError.UnmarshalTypeError "object"))

/-- Decoding of the members of an object into the record, in order: a known
key sets its field, an unknown key is skipped, and the first type error is the
one reported while the later members are still decoded. -/
def MessageRecord.decodeMembers :
    List (Bytes × json.Value) → MessageRecord → Option GoError → MessageRecord × Option GoError
  | [], m, e => (m, e)
  | (key, v) :: rest, m, e =>
    if keyIs (ascii "id") key then
      MessageRecord.decodeMembers rest { m with ID := (stringField m.ID v).1 }
        (e.orElse (fun _ => (stringField m.ID v).2))
    else if keyIs (ascii "content") key then
      MessageRecord.decodeMembers rest { m with Content := (stringField m.Content v).1 }
        (e.orElse (fun _ => (stringField m.Content v).2))
    else MessageRecord.decodeMembers rest m e

/-- Decoding of a document into the record: an object is decoded member by
member, null leaves the record, any other value is a type error. -/
def MessageRecord.decode (v : json.Value) (m : MessageRecord) : MessageRecord × Option GoError :=
  match v with
  | json.Value.object members => MessageRecord.decodeMembers members m none
  | json.Value.null => (m, none)
  | json.Value.bool _ => (m, some (GoError.UnmarshalTypeError "bool"))
  | json.Value.number _ => (m, some (GoError.UnmarshalTypeError "number"))
  | json.Value.string _ => (m, some (GoError.UnmarshalTypeError "string"))
  | json.Value.array _ => (m, some (GoError.UnmarshalTypeError "array"))

/-- The shape of the message record. -/
def messageShape : Shape where
  T := MessageRecord
  zero := ⟨[], []⟩
  decode := MessageRecord.decode

/-- A set of record types in which every category carries the message record. -/
def sampleRecords : dto.Records where
  WSGuildData := messageShape
  WSChannelData := messageShape
  WSGuildMemberData := messageShape
  WSMessageData := messageShape
  WSMessageDeleteData := messageShape
  WSMessageReactionData := messageShape
  WSATMessageData := messageShape
  WSPublicMessageDeleteData := messageShape
  WSDirectMessageData := messageShape
  WSDirectMessageDeleteData := messageShape
  WSAudioData := messageShape
  WSThreadData := messageShape
  WSPostData := messageShape
  WSReplyData := messageShape
  WSForumAuditData := messageShape
  WSMessageAuditData := messageShape
  WSInteractionData := messageShape
  WSC2CMessageData := messageShape
  WSGroupATMessageData := messageShape

/-- The body of the concrete scenario: a frame whose `d` is the message
`m1` with content `hi`. -/
def scenarioBody : Bytes :=
  ascii "\x7b\"op\":0,\"s\":1,\"t\":\"MESSAGE_CREATE\",\"d\":\x7b\"id\":\"m1\",\"content\":\"hi\"\x7d\x7d"

/-- The envelope of the concrete scenario. -/
def scenarioPayload : dto.WSPayload :=
  ⟨dto.WSDispatchEvent, dto.EventType.EventMessageCreate, scenarioBody⟩

/-- The record the scenario decodes to. -/
def scenarioRecord : MessageRecord := ⟨ascii "m1", ascii "hi"⟩

/-- A registry with a message callback that reports the record it received,
and nothing else. -/
def messageRegistry : Handlers sampleRecords :=
  { Message := some (fun (_ : dto.WSPayload) (m : MessageRecord) =>
      if m.ID = ascii "m1" then some (GoError.Callback "saw m1") else none) }

/-- A registry with the passthrough callback and a message callback, both of
which return an error. -/
def refusingRegistry : Handlers sampleRecords :=
  { Plain := some (fun _ _ => some (GoError.Callback "plain refused"))
    Message := some (fun _ _ => some (GoError.Callback "message refused")) }

/-- A registry with the passthrough callback only. -/
def plainRegistry : Handlers sampleRecords :=
  { Plain := some (fun _ raw => if raw = [] then none else some (GoError.Callback "plain saw bytes")) }

/-- The empty registry. -/
def emptyRegistry : Handlers sampleRecords := {}

/-- A frame of the scenario type cut off inside its `d` value. -/
def truncatedPayload : dto.WSPayload :=
  ⟨dto.WSDispatchEvent, dto.EventType.EventMessageCreate, ascii "\x7b\"op\":0,\"d\":\x7b\"id\":\"m1\""⟩

/-- A frame whose event type the routing table does not know. -/
def unknownPayload : dto.WSPayload :=
  ⟨dto.WSDispatchEvent, dto.EventType.other "RESUMED", ascii "\x7b\"op\":0,\"t\":\"RESUMED\",\"d\":\"\"\x7d"⟩

/-- A frame of the scenario type under another operation code. -/
def heartbeatPayload : dto.WSPayload :=
  ⟨1, dto.EventType.EventMessageCreate, scenarioBody⟩

/-- A body whose `d` is a JSON string that holds the text of an object. -/
def quotedBody : Bytes := ascii "\x7b\"d\":\"\x7b\\\"id\\\":\\\"m1\\\"\x7d\"\x7d"

/-- A body whose `d` is the plain integer 123. -/
def integerBody : Bytes := ascii "\x7b\"d\":123\x7d"

/-- A body whose `d` is the number 1.50. -/
def fractionBody : Bytes := ascii "\x7b\"d\":1.50\x7d"

/-- A body whose `d` is a number beyond the range of a float. -/
def hugeBody : Bytes := ascii "\x7b\"d\":1e999\x7d"

/-- The event types the specification lists for the dispatch operation code,
each with the category it names for it. -/
def specCategory : dto.EventType → Option Category
  | dto.EventType.EventGuildCreate => some Category.Guild
  | dto.EventType.EventGuildUpdate => some Category.Guild
  | dto.EventType.EventGuildDelete => some Category.Guild
  | dto.EventType.EventChannelCreate => some Category.Channel
  | dto.EventType.EventChannelUpdate => some Category.Channel
  | dto.EventType.EventChannelDelete => some Category.Channel
  | dto.EventType.EventGuildMemberAdd => some Category.GuildMember
  | dto.EventType.EventGuildMemberUpdate => some Category.GuildMember
  | dto.EventType.EventGuildMemberRemove => some Category.GuildMember
  | dto.EventType.EventMessageCreate => some Category.Message
  | dto.EventType.EventMessageDelete => some Category.MessageDelete
  | dto.EventType.EventMessageReactionAdd => some Category.MessageReaction
  | dto.EventType.EventMessageReactionRemove => some Category.MessageReaction
  | dto.EventType.EventAtMessageCreate => some Category.ATMessage
  | dto.EventType.EventPublicMessageDelete => some Category.PublicMessageDelete
  | dto.EventType.EventDirectMessageCreate => some Category.DirectMessage
  | dto.EventType.EventDirectMessageDelete => some Category.DirectMessageDelete
  | dto.EventType.EventAudioStart => some Category.Audio
  | dto.EventType.EventAudioFinish => some Category.Audio
  | dto.EventType.EventAudioOnMic => some Category.Audio
  | dto.EventType.EventAudioOffMic => some Category.Audio
  | dto.EventType.EventMessageAuditPass => some Category.MessageAudit
  | dto.EventType.EventMessageAuditReject => some Category.MessageAudit
  | dto.EventType.EventForumThreadCreate => some Category.Thread
  | dto.EventType.EventForumThreadDelete => some Category.Thread
  | dto.EventType.EventForumPostCreate => some Category.Post
  | dto.EventType.EventForumPostDelete => some Category.Post
  | dto.EventType.EventForumReplyCreate => some Category.Reply
  | dto.EventType.EventForumReplyDelete => some Category.Reply
  | dto.EventType.EventForumAuditResult => some Category.ForumAudit
  | dto.EventType.EventInteractionCreate => some Category.Interaction
  | dto.EventType.EventC2CMessageCreate => some Category.C2CMessage
  | dto.EventType.EventGroupAtMessageCreate => some Category.GroupATMessage
  | dto.EventType.EventForumThreadUpdate => none
  | dto.EventType.other _ => none

/-! ## Lemmas on the routing table and the routines -/

theorem routineOf_eq_routine (D : dto.Records) (c : Category) : routineOf D c = routine D c := by
  funext H p m
  cases c <;>
  · simp only [routineOf, guildHandler, channelHandler, guildMemberHandler, messageHandler,
      messageDeleteHandler, messageReactionHandler, atMessageHandler, publicMessageDeleteHandler,
      directMessageHandler, directMessageDeleteHandler, audioHandler, threadHandler, postHandler,
      replyHandler, forumAuditHandler, messageAuditHandler, interactionHandler, c2cMessageHandler,
      groupAtMessageHandler, routine, Handlers.slot, Category.shape]
    split
    · rfl
    · split <;> simp only [*]

theorem lookupRoutine_dispatch (D : dto.Records) (t : dto.EventType) :
    lookupRoutine D dto.WSDispatchEvent t = (tableCategory t).map (routineOf D) := by
  cases t <;> rfl

theorem lookupRoutine_other_opcode (D : dto.Records) (op : dto.OPCode) (t : dto.EventType)
    (hop : op ≠ dto.WSDispatchEvent) : lookupRoutine D op t = none := by
  have hne : (op == dto.WSDispatchEvent) = false := by simpa using hop
  simp [lookupRoutine, eventParseFuncMap, List.lookup, hne]

/-- Every entry of the routing table sits under the dispatch operation code and
is the routine of the category the table gives its event type. -/
theorem lookupRoutine_eq_some {D : dto.Records} {op : dto.OPCode} {t : dto.EventType}
    {h : eventParseFunc D} (hl : lookupRoutine D op t = some h) :
    op = dto.WSDispatchEvent ∧ ∃ c, tableCategory t = some c ∧ h = routineOf D c := by
  by_cases hop : op = dto.WSDispatchEvent
  · subst hop
    rw [lookupRoutine_dispatch] at hl
    cases hc : tableCategory t with
    | none => simp [hc] at hl
    | some c =>
      simp only [hc, Option.map_some', Option.some.injEq] at hl
      exact ⟨rfl, c, rfl, hl.symm⟩
  · rw [lookupRoutine_other_opcode D op t hop] at hl
    cases hl

theorem ParseAndHandle_of_entry {D : dto.Records} (H : Handlers D) (payload : dto.WSPayload)
    {h : eventParseFunc D} (hl : lookupRoutine D payload.OPCode payload.Type_ = some h) :
    ParseAndHandle H payload = h H payload payload.RawMessage := by
  simp only [ParseAndHandle, hl]

theorem ParseAndHandle_of_no_entry_plain {D : dto.Records} (H : Handlers D) (payload : dto.WSPayload)
    (plain : Callback Bytes) (hl : lookupRoutine D payload.OPCode payload.Type_ = none)
    (hp : H.Plain = some plain) :
    ParseAndHandle H payload =
      ⟨plain payload payload.RawMessage, [], [Call.Plain payload payload.RawMessage]⟩ := by
  simp only [ParseAndHandle, hl, hp]

theorem ParseAndHandle_of_no_entry_empty {D : dto.Records} (H : Handlers D) (payload : dto.WSPayload)
    (hl : lookupRoutine D payload.OPCode payload.Type_ = none) (hp : H.Plain = none) :
    ParseAndHandle H payload = ⟨none, [], []⟩ := by
  simp only [ParseAndHandle, hl, hp]

theorem routine_decode_error {D : dto.Records} (c : Category) (H : Handlers D) (p : dto.WSPayload)
    (m : Bytes) (data : (c.shape D).T) (err : GoError)
    (hd : ParseData (c.shape D) m (c.shape D).zero = (data, some err)) :
    routine D c H p m = ⟨some err, [c], []⟩ := by
  simp only [routine, hd]

theorem routine_populated {D : dto.Records} (c : Category) (H : Handlers D) (p : dto.WSPayload)
    (m : Bytes) (data : (c.shape D).T) (callback : Callback (c.shape D).T)
    (hd : ParseData (c.shape D) m (c.shape D).zero = (data, none)) (hs : H.slot c = some callback) :
    routine D c H p m = ⟨callback p data, [c], [Call.Event c p data]⟩ := by
  simp only [routine, hd, hs]

theorem routine_empty {D : dto.Records} (c : Category) (H : Handlers D) (p : dto.WSPayload)
    (m : Bytes) (data : (c.shape D).T)
    (hd : ParseData (c.shape D) m (c.shape D).zero = (data, none)) (hs : H.slot c = none) :
    routine D c H p m = ⟨none, [c], []⟩ := by
  simp only [routine, hd, hs]

/-- A routine decodes once, into the record of its category, and calls no slot
but its own, with the payload it was given. -/
theorem routine_parsed_calls {D : dto.Records} (c : Category) (H : Handlers D) (p : dto.WSPayload)
    (m : Bytes) :
    (routine D c H p m).parsed = [c] ∧
      ∀ call ∈ (routine D c H p m).calls, ∃ data, call = Call.Event c p data := by
  simp only [routine]
  split
  · simp
  · split
    · simp
    · simp

/-! ## Lemmas on the decoder -/

theorem Result_String_of_not_Exists (r : gjson.Result) (h : r.Exists = false) : r.String = [] := by
  have hk : r.Kind = gjson.ResultType.Null := by
    simp only [gjson.Result.Exists, Bool.or_eq_false_iff, decide_eq_false_iff_not, not_not] at h
    exact h.1
  simp only [gjson.Result.String, hk]

theorem Unmarshal_empty (shape : Shape) (target : shape.T) :
    json.Unmarshal shape [] target = (target, some GoError.SyntaxError) := rfl

/-- A string read by `stringEnd` whose bytes hold no quote and no backslash ends
at the next quote, and its content is the bytes themselves. -/
theorem stringEnd_plain (s rest acc : Bytes) (esc : Bool) (fuel : Nat)
    (hs : ∀ c ∈ s, c ≠ 34 ∧ c ≠ 92) (hf : s.length < fuel) :
    gjson.stringEnd fuel (s ++ 34 :: rest) acc esc = some (acc.reverse ++ s, esc, rest) := by
  induction s generalizing acc fuel with
  | nil =>
    cases fuel with
    | zero => simp at hf
    | succ n => simp [gjson.stringEnd]
  | cons c s ih =>
    cases fuel with
    | zero => simp at hf
    | succ n =>
      have hc := hs c (List.mem_cons_self c s)
      have hlen : s.length < n := by simpa using hf
      have ih1 := ih (c :: acc) n (fun x hx => hs x (List.mem_cons_of_mem c hx)) hlen
      simp only [List.cons_append, gjson.stringEnd, hc.1, hc.2, if_false]
      simpa using ih1

theorem findKey_quote (x : Bytes) : gjson.findKey (34 :: x) = some x := by
  simp [gjson.findKey]

theorem stringEnd_d (fuel : Nat) (x : Bytes) :
    gjson.stringEnd (fuel + 2) (100 :: 34 :: x) [] false = some ([100], false, x) := by
  simp [gjson.stringEnd]

theorem findValue_colon_quote (x : Bytes) : gjson.findValue (58 :: 34 :: x) = 34 :: x := by
  simp [gjson.findValue, gjson.startsValue, json.isDigit]

/-- In a body that is an object with the single member `d`, a string of plain
bytes, gjson finds that string, and its content is the bytes. -/
theorem Get_string_body (s : Bytes) (hs : ∀ c ∈ s, c ≠ 34 ∧ c ≠ 92) :
    gjson.Get (ascii "\x7b\"d\":\"" ++ s ++ ascii "\"\x7d") (ascii "d") =
      { Kind := gjson.ResultType.String, Raw := 34 :: s ++ [34], Str := s } := by
  have hbody : ascii "\x7b\"d\":\"" ++ s ++ ascii "\"\x7d" =
      123 :: 34 :: 100 :: 34 :: 58 :: 34 :: (s ++ 34 :: [125]) := by
    simp [ascii]
  have hstr := stringEnd_plain s [125] [] false ((s ++ 34 :: [125]).length + 1) hs
    (by simp; omega)
  have hd : ascii "d" = [100] := rfl
  rw [hbody, hd]
  simp only [gjson.Get, List.dropWhile]
  simp only [decide_not, ne_eq, not_true_eq_false, false_and, decide_False, ite_true, if_true]
  unfold gjson.parseObject
  rw [findKey_quote]
  simp only [List.length_cons, stringEnd_d, findValue_colon_quote, hstr, if_true, if_false]
  simp

theorem parseObject_number (fuel : Nat) (s path : Bytes) :
    gjson.NumberRead (gjson.parseObject fuel s path) := by
  induction fuel generalizing s with
  | zero => intro h; simp [gjson.parseObject] at h
  | succ n ih =>
    simp only [gjson.parseObject]
    repeat' split
    all_goals first
      | exact ih _
      | (intro _; exact ⟨List.cons_ne_nil _ _, rfl⟩)
      | (intro h; cases h)

/-- A number that a lookup finds has its raw text, and the float read from it. -/
theorem Get_number (message path : Bytes) : gjson.NumberRead (gjson.Get message path) := by
  unfold gjson.Get
  repeat' split
  all_goals first
    | exact parseObject_number _ _ _
    | (intro h; cases h)

theorem numberTail_digits (ds rest : Bytes) (hd : ∀ c ∈ ds, json.isDigit c = true) :
    gjson.numberTail (ds ++ 125 :: rest) = (ds, 125 :: rest) := by
  induction ds with
  | nil => simp [gjson.numberTail]
  | cons c ds ih =>
    have hc : 48 ≤ c ∧ c ≤ 57 := by
      have := hd c (List.mem_cons_self c ds)
      simpa [json.isDigit] using this
    have ih1 := ih (fun x hx => hd x (List.mem_cons_of_mem c hx))
    have h1 : ¬ (c ≤ 32 ∨ c = 44 ∨ c = 93 ∨ c = 125) := by omega
    simp only [List.cons_append, gjson.numberTail, h1, if_false]
    rw [show ds.append (125 :: rest) = ds ++ 125 :: rest from rfl, ih1]

theorem plainInteger_digits (ds : Bytes) (hd : ∀ c ∈ ds, json.isDigit c = true) :
    gjson.plainInteger ds = true := by
  have hall : ds.all json.isDigit = true := List.all_eq_true.mpr hd
  cases ds with
  | nil => rfl
  | cons c t =>
    have hc : c ≠ 45 := by
      have := hd c (List.mem_cons_self c t)
      have h2 : 48 ≤ c ∧ c ≤ 57 := by simpa [json.isDigit] using this
      omega
    unfold gjson.plainInteger
    split
    · rename_i heq
      exact absurd (List.cons.inj heq).1 hc
    · exact hall

/-- In a body that is an object with the single member `d`, a run of digits,
gjson finds that number with the digits as its raw text. -/
theorem Get_integer_body (c : Nat) (ds : Bytes) (hd : ∀ x ∈ c :: ds, json.isDigit x = true) :
    gjson.Get (ascii "\x7b\"d\":" ++ (c :: ds) ++ ascii "\x7d") (ascii "d") =
      { Kind := gjson.ResultType.Number, Raw := c :: ds,
        Num := strconv.ParseFloat (c :: ds) } := by
  have hbody : ascii "\x7b\"d\":" ++ (c :: ds) ++ ascii "\x7d" =
      123 :: 34 :: 100 :: 34 :: 58 :: c :: (ds ++ 125 :: []) := by
    simp [ascii]
  have hc : 48 ≤ c ∧ c ≤ 57 := by
    have := hd c (List.mem_cons_self c ds)
    simpa [json.isDigit] using this
  have htail := numberTail_digits ds [] (fun x hx => hd x (List.mem_cons_of_mem c hx))
  have hval : gjson.findValue (58 :: c :: (ds ++ 125 :: [])) = c :: (ds ++ 125 :: []) := by
    have h1 : gjson.startsValue 58 = false := by decide
    have h2 : gjson.startsValue c = true := by
      simp [gjson.startsValue, json.isDigit, hc.1, hc.2]
    simp [gjson.findValue, h1, h2]
  have hd1 : ascii "d" = [100] := rfl
  have n34 : c ≠ 34 := by omega
  have n123 : ¬ (c = 123 ∨ c = 91) := by omega
  have n116 : ¬ (c = 116 ∨ c = 102 ∨ c = 110) := by omega
  rw [hbody, hd1]
  simp only [gjson.Get, List.dropWhile]
  simp only [decide_not, ne_eq, not_true_eq_false, false_and, decide_False, ite_true, if_true]
  unfold gjson.parseObject
  rw [findKey_quote]
  simp only [List.length_cons, stringEnd_d, hval, n34, n123, n116, htail, if_false]
  simp

/-! ## The claims -/

/-- C1: when the table has an entry for the pair of a payload, the entry is the
routine of the category the table gives the event type, and whenever the slot
of that category is populated and ParseData decodes the raw message into the
record of the category, ParseAndHandle decodes once, calls the slot exactly
once with the payload and the decoded record, calls nothing else, and returns
what the slot returned, nil or the same error. -/
theorem ParseAndHandle_populated_slot {D : dto.Records} (H : Handlers D) (payload : dto.WSPayload)
    (h : eventParseFunc D) (hentry : lookupRoutine D payload.OPCode payload.Type_ = some h) :
    ∃ c : Category, tableCategory payload.Type_ = some c ∧ h = routineOf D c ∧
      ∀ (callback : Callback (c.shape D).T) (data : (c.shape D).T),
        H.slot c = some callback →
        ParseData (c.shape D) payload.RawMessage (c.shape D).zero = (data, none) →
        ParseAndHandle H payload = ⟨callback payload data, [c], [Call.Event c payload data]⟩ := by
  obtain ⟨_, c, hc, hh⟩ := lookupRoutine_eq_some hentry
  refine ⟨c, hc, hh, ?_⟩
  intro callback data hs hd
  rw [ParseAndHandle_of_entry H payload hentry, hh, routineOf_eq_routine]
  exact routine_populated c H payload payload.RawMessage data callback hd hs

/-- The scenario of the specification with a message callback registered: one
call with the record `m1`, `hi`, and the error of the callback returned. -/
theorem ParseAndHandle_populated_slot_witness :
    ParseAndHandle messageRegistry scenarioPayload =
      ⟨some (GoError.Callback "saw m1"), [Category.Message],
        [Call.Event Category.Message scenarioPayload scenarioRecord]⟩ := by
  obtain ⟨c, hc, _, hcall⟩ :=
    ParseAndHandle_populated_slot messageRegistry scenarioPayload (messageHandler sampleRecords) rfl
  have hc1 : some Category.Message = some c := hc
  cases hc1
  exact hcall _ scenarioRecord rfl rfl

/-- C2: when the table has an entry for the pair of a payload and ParseData
fails on the raw message for the record of the entry's category, ParseAndHandle
returns that decode error and calls no callback, neither the slot of the
category nor Plain, whatever the registry holds. -/
theorem ParseAndHandle_decode_error {D : dto.Records} (H : Handlers D) (payload : dto.WSPayload)
    (h : eventParseFunc D) (hentry : lookupRoutine D payload.OPCode payload.Type_ = some h) :
    ∃ c : Category, tableCategory payload.Type_ = some c ∧ h = routineOf D c ∧
      ∀ (data : (c.shape D).T) (err : GoError),
        ParseData (c.shape D) payload.RawMessage (c.shape D).zero = (data, some err) →
        ParseAndHandle H payload = ⟨some err, [c], []⟩ := by
  obtain ⟨_, c, hc, hh⟩ := lookupRoutine_eq_some hentry
  refine ⟨c, hc, hh, ?_⟩
  intro data err hd
  rw [ParseAndHandle_of_entry H payload hentry, hh, routineOf_eq_routine]
  exact routine_decode_error c H payload payload.RawMessage data err hd

/-- A frame cut off inside `d`, with the message slot and Plain both populated:
the syntax error is returned and nothing is called. -/
theorem ParseAndHandle_decode_error_witness :
    ParseAndHandle refusingRegistry truncatedPayload =
      ⟨some GoError.SyntaxError, [Category.Message], []⟩ := by
  obtain ⟨c, hc, _, hcall⟩ :=
    ParseAndHandle_decode_error refusingRegistry truncatedPayload (messageHandler sampleRecords) rfl
  have hc1 : some Category.Message = some c := hc
  cases hc1
  exact hcall messageShape.zero GoError.SyntaxError rfl

/-- C3: when the table has no entry for the pair of a payload and Plain is
populated, ParseAndHandle calls Plain exactly once with the payload and the
whole raw message, decodes nothing, calls no category slot, and returns the
result of Plain unchanged. -/
theorem ParseAndHandle_fallback {D : dto.Records} (H : Handlers D) (payload : dto.WSPayload)
    (plain : Callback Bytes) (hentry : lookupRoutine D payload.OPCode payload.Type_ = none)
    (hplain : H.Plain = some plain) :
    ParseAndHandle H payload =
      ⟨plain payload payload.RawMessage, [], [Call.Plain payload payload.RawMessage]⟩ :=
  ParseAndHandle_of_no_entry_plain H payload plain hentry hplain

/-- An unknown event type with Plain registered: Plain gets the whole frame. -/
theorem ParseAndHandle_fallback_witness :
    ParseAndHandle plainRegistry unknownPayload =
      ⟨some (GoError.Callback "plain saw bytes"), [],
        [Call.Plain unknownPayload
          (ascii "\x7b\"op\":0,\"t\":\"RESUMED\",\"d\":\"\"\x7d")]⟩ :=
  ParseAndHandle_fallback plainRegistry unknownPayload _ rfl rfl

/-- C4, as stated, fails: for a pair the table does not know, a populated Plain
that returns an error makes ParseAndHandle return that error. -/
theorem ParseAndHandle_unknown_pair_may_return_error :
    lookupRoutine sampleRecords unknownPayload.OPCode unknownPayload.Type_ = none ∧
      (ParseAndHandle refusingRegistry unknownPayload).err =
        some (GoError.Callback "plain refused") :=
  ⟨rfl, rfl⟩

/-- C4, amended: for a pair the table does not know, ParseAndHandle adds no
error of its own. With Plain empty it returns nil, decodes nothing and calls
nothing, whatever the raw message is; with Plain populated the error it returns
is exactly the one Plain returned. -/
theorem ParseAndHandle_unknown_pair {D : dto.Records} (H : Handlers D) (payload : dto.WSPayload)
    (hentry : lookupRoutine D payload.OPCode payload.Type_ = none) :
    (H.Plain = none →
      ∀ raw : Bytes, ParseAndHandle H { payload with RawMessage := raw } = ⟨none, [], []⟩) ∧
    (∀ plain : Callback Bytes, H.Plain = some plain →
      (ParseAndHandle H payload).err = plain payload payload.RawMessage) := by
  constructor
  · intro hp raw
    exact ParseAndHandle_of_no_entry_empty H { payload with RawMessage := raw } hentry hp
  · intro plain hp
    rw [ParseAndHandle_of_no_entry_plain H payload plain hentry hp]

/-- An unknown event type with nothing registered, on malformed bytes. -/
theorem ParseAndHandle_unknown_pair_witness :
    ParseAndHandle emptyRegistry { unknownPayload with RawMessage := ascii "\x7b\"d\":" } =
      ⟨none, [], []⟩ :=
  (ParseAndHandle_unknown_pair emptyRegistry unknownPayload rfl).1 rfl (ascii "\x7b\"d\":")

/-- C5: when the table has an entry for the pair of a payload, ParseData
decodes the raw message, and the slot of the entry's category is empty,
ParseAndHandle returns nil and calls no callback, whatever the other slots and
Plain hold. -/
theorem ParseAndHandle_empty_slot {D : dto.Records} (H : Handlers D) (payload : dto.WSPayload)
    (h : eventParseFunc D) (hentry : lookupRoutine D payload.OPCode payload.Type_ = some h) :
    ∃ c : Category, tableCategory payload.Type_ = some c ∧ h = routineOf D c ∧
      ∀ data : (c.shape D).T,
        H.slot c = none →
        ParseData (c.shape D) payload.RawMessage (c.shape D).zero = (data, none) →
        ParseAndHandle H payload = ⟨none, [c], []⟩ := by
  obtain ⟨_, c, hc, hh⟩ := lookupRoutine_eq_some hentry
  refine ⟨c, hc, hh, ?_⟩
  intro data hs hd
  rw [ParseAndHandle_of_entry H payload hentry, hh, routineOf_eq_routine]
  exact routine_empty c H payload payload.RawMessage data hd hs

/-- The scenario of the specification with no message callback, Plain being
registered: success and no call. -/
theorem ParseAndHandle_empty_slot_witness :
    ParseAndHandle plainRegistry scenarioPayload = ⟨none, [Category.Message], []⟩ := by
  obtain ⟨c, hc, _, hcall⟩ :=
    ParseAndHandle_empty_slot plainRegistry scenarioPayload (messageHandler sampleRecords) rfl
  have hc1 : some Category.Message = some c := hc
  cases hc1
  exact hcall scenarioRecord rfl rfl

/-- C6: the code against the claim. For a message-create event under the
dispatch operation code, with the Message slot empty and Plain populated, the
claim, like the comment on the fallback in ParseAndHandle, has Plain receive
the event; ParseAndHandle decodes the message, returns nil and calls nothing,
Plain included. -/
theorem Plain_not_called_for_known_type :
    plainRegistry.Message = none ∧ plainRegistry.Plain.isSome = true ∧
      tableCategory scenarioPayload.Type_ = some Category.Message ∧
      ParseAndHandle plainRegistry scenarioPayload = ⟨none, [Category.Message], []⟩ :=
  ⟨rfl, rfl, rfl, rfl⟩

/-- What the code does with Plain. With Plain populated, ParseAndHandle calls
it, once and with the payload and its raw message, for a payload whose pair has
no entry in the table; for a pair that has an entry no call is one of Plain,
whether the slot of the category is populated or empty. -/
theorem Plain_called_iff_no_entry {D : dto.Records} (H : Handlers D) (payload : dto.WSPayload)
    (plain : Callback Bytes) (hplain : H.Plain = some plain) :
    (lookupRoutine D payload.OPCode payload.Type_ = none →
      (ParseAndHandle H payload).calls = [Call.Plain payload payload.RawMessage]) ∧
    (∀ h, lookupRoutine D payload.OPCode payload.Type_ = some h →
      ∀ call ∈ (ParseAndHandle H payload).calls, call.isPlain = false) := by
  constructor
  · intro hl
    rw [ParseAndHandle_of_no_entry_plain H payload plain hl hplain]
  · intro h hl call hcall
    obtain ⟨_, c, _, hh⟩ := lookupRoutine_eq_some hl
    rw [ParseAndHandle_of_entry H payload hl, hh, routineOf_eq_routine] at hcall
    obtain ⟨data, hdata⟩ := (routine_parsed_calls c H payload payload.RawMessage).2 call hcall
    rw [hdata]
    rfl

/-- C7: under the dispatch operation code the table has an entry for every
event type the specification lists, and the entry is the routine of the
category the specification names for it: the routine decodes once, into the
record of that category, calls no slot but that of the category, and is the
decode-and-dispatch routine the specification describes. -/
theorem eventParseFuncMap_routes_listed_types (D : dto.Records) (t : dto.EventType) (c : Category)
    (hspec : specCategory t = some c) :
    lookupRoutine D dto.WSDispatchEvent t = some (routineOf D c) ∧
      routineOf D c = routine D c ∧
      ∀ (H : Handlers D) (p : dto.WSPayload) (m : Bytes),
        (routineOf D c H p m).parsed = [c] ∧
        ∀ call ∈ (routineOf D c H p m).calls, ∃ data, call = Call.Event c p data := by
  have htable : tableCategory t = some c := by
    cases t <;> first | exact hspec | cases hspec
  refine ⟨?_, routineOf_eq_routine D c, ?_⟩
  · rw [lookupRoutine_dispatch, htable]
    rfl
  · intro H p m
    rw [routineOf_eq_routine]
    exact routine_parsed_calls c H p m

/-- The public-message-delete type is routed to the routine of its own
category. -/
theorem eventParseFuncMap_routes_listed_types_witness :
    lookupRoutine sampleRecords dto.WSDispatchEvent dto.EventType.EventPublicMessageDelete =
      some (publicMessageDeleteHandler sampleRecords) :=
  (eventParseFuncMap_routes_listed_types sampleRecords dto.EventType.EventPublicMessageDelete
    Category.PublicMessageDelete rfl).1

/-- C8: for every message in which gjson finds no value under the top-level key
`d`, the empty message among them, and for every target shape and target,
ParseData returns an error, the syntax error of decoding the empty text, and
leaves the target as it was. -/
theorem ParseData_no_d_field (shape : Shape) (message : Bytes) (target : shape.T)
    (hd : (gjson.Get message (ascii "d")).Exists = false) :
    ParseData shape message target = (target, some GoError.SyntaxError) := by
  simp only [ParseData, Result_String_of_not_Exists _ hd, Unmarshal_empty]

/-- The empty body and a heartbeat-acknowledge frame have no `d`. -/
theorem ParseData_no_d_field_witness :
    ParseData messageShape [] scenarioRecord = (scenarioRecord, some GoError.SyntaxError) ∧
      ParseData messageShape (ascii "\x7b\"op\":11,\"x\":\x7b\"d\":1\x7d\x7d") scenarioRecord =
        (scenarioRecord, some GoError.SyntaxError) :=
  ⟨ParseData_no_d_field messageShape [] scenarioRecord rfl,
   ParseData_no_d_field messageShape _ scenarioRecord rfl⟩

/-- C9, as stated, fails: when `d` is the JSON string that holds the text of an
object with id `m1`, ParseData succeeds and fills the record from the content of
the string, although the raw text of the `d` value, a string, does not decode
into the record. -/
theorem ParseData_accepts_quoted_object :
    (gjson.Get quotedBody (ascii "d")).Kind = gjson.ResultType.String ∧
      ParseData messageShape quotedBody messageShape.zero = (⟨ascii "m1", []⟩, none) ∧
      json.Unmarshal messageShape (gjson.Get quotedBody (ascii "d")).Raw messageShape.zero =
        (messageShape.zero, some (GoError.UnmarshalTypeError "string")) :=
  ⟨rfl, rfl, rfl⟩

/-- C9, amended: ParseData decodes the string form gjson gives the value under
the top-level key `d`, for every message, target shape and target, and returns
what decoding that text into the target returns. The text is the raw text when
the value is an object, an array or a plain integer, the unescaped content when
it is a JSON string, the name of a boolean, the printed float of any other
number, and the empty text, a syntax error that leaves the target, when the
value is null or missing. For a body whose `d` is a string of plain bytes the
text decoded is those bytes, and for one whose `d` is a run of digits it is the
digits. -/
theorem ParseData_decodes_string_form (shape : Shape) (message : Bytes) (target : shape.T) :
    ((gjson.Get message (ascii "d")).Kind = gjson.ResultType.JSON →
      ParseData shape message target =
        json.Unmarshal shape (gjson.Get message (ascii "d")).Raw target) ∧
    ((gjson.Get message (ascii "d")).Kind = gjson.ResultType.String →
      ParseData shape message target =
        json.Unmarshal shape (gjson.Get message (ascii "d")).Str target) ∧
    ((gjson.Get message (ascii "d")).Kind = gjson.ResultType.True →
      ParseData shape message target = json.Unmarshal shape (ascii "true") target) ∧
    ((gjson.Get message (ascii "d")).Kind = gjson.ResultType.False →
      ParseData shape message target = json.Unmarshal shape (ascii "false") target) ∧
    ((gjson.Get message (ascii "d")).Kind = gjson.ResultType.Null →
      ParseData shape message target = (target, some GoError.SyntaxError)) ∧
    ((gjson.Get message (ascii "d")).Kind = gjson.ResultType.Number →
      gjson.plainInteger (gjson.Get message (ascii "d")).Raw = true →
      ParseData shape message target =
        json.Unmarshal shape (gjson.Get message (ascii "d")).Raw target) ∧
    ((gjson.Get message (ascii "d")).Kind = gjson.ResultType.Number →
      gjson.plainInteger (gjson.Get message (ascii "d")).Raw = false →
      ParseData shape message target =
        json.Unmarshal shape
          (strconv.FormatFloat (strconv.ParseFloat (gjson.Get message (ascii "d")).Raw))
          target) ∧
    (∀ s : Bytes, (∀ c ∈ s, c ≠ 34 ∧ c ≠ 92) →
      message = ascii "\x7b\"d\":\"" ++ s ++ ascii "\"\x7d" →
      ParseData shape message target = json.Unmarshal shape s target) ∧
    (∀ (c : Nat) (ds : Bytes), (∀ x ∈ c :: ds, json.isDigit x = true) →
      message = ascii "\x7b\"d\":" ++ (c :: ds) ++ ascii "\x7d" →
      ParseData shape message target = json.Unmarshal shape (c :: ds) target) := by
  refine ⟨?_, ?_, ?_, ?_, ?_, ?_, ?_, ?_, ?_⟩
  · intro hk
    simp only [ParseData, gjson.Result.String, hk]
  · intro hk
    simp only [ParseData, gjson.Result.String, hk]
  · intro hk
    simp only [ParseData, gjson.Result.String, hk]
  · intro hk
    simp only [ParseData, gjson.Result.String, hk]
  · intro hk
    simp only [ParseData, gjson.Result.String, hk, Unmarshal_empty]
  · intro hk hp
    have hraw := (Get_number message (ascii "d") hk).1
    simp only [ParseData, gjson.Result.String, hk, hraw, hp, if_false, if_true]
  · intro hk hp
    obtain ⟨hraw, hnum⟩ := Get_number message (ascii "d") hk
    simp only [ParseData, gjson.Result.String, hk, hraw, hp, hnum, if_false, Bool.false_eq_true]
  · intro s hs hm
    have hget := Get_string_body s hs
    rw [← hm] at hget
    simp only [ParseData, hget, gjson.Result.String]
  · intro c ds hd hm
    have hget := Get_integer_body c ds hd
    rw [← hm] at hget
    have hp := plainInteger_digits (c :: ds) hd
    simp only [ParseData, hget, gjson.Result.String, hp, if_true]
    simp

/-- The scenario body is decoded from the raw text of its object, a quoted
`null` from the content of the string, 123 from its digits, and 1.50 and 1e999
from the printed floats 1.5 and +Inf, the second of which is no JSON. -/
theorem ParseData_decodes_string_form_witness :
    ParseData messageShape scenarioBody messageShape.zero =
        json.Unmarshal messageShape
          (ascii "\x7b\"id\":\"m1\",\"content\":\"hi\"\x7d") messageShape.zero ∧
      ParseData messageShape (ascii "\x7b\"d\":\"null\"\x7d") scenarioRecord =
        json.Unmarshal messageShape (ascii "null") scenarioRecord ∧
      ParseData messageShape integerBody scenarioRecord =
        (scenarioRecord, some (GoError.UnmarshalTypeError "number")) ∧
      ParseData messageShape fractionBody scenarioRecord =
        json.Unmarshal messageShape (ascii "1.5") scenarioRecord ∧
      ParseData messageShape hugeBody scenarioRecord =
        (scenarioRecord, some GoError.SyntaxError) :=
  ⟨(ParseData_decodes_string_form messageShape scenarioBody messageShape.zero).1 rfl,
   (ParseData_decodes_string_form messageShape _ scenarioRecord).2.2.2.2.2.2.2.1 (ascii "null")
     (by decide) rfl,
   (ParseData_decodes_string_form messageShape integerBody scenarioRecord).2.2.2.2.2.2.2.2
     49 [50, 51] (by decide) rfl,
   (ParseData_decodes_string_form messageShape fractionBody scenarioRecord).2.2.2.2.2.2.1 rfl rfl,
   (ParseData_decodes_string_form messageShape hugeBody scenarioRecord).2.2.2.2.2.2.1 rfl rfl⟩

/-- C10: for every payload whose operation code is not the dispatch code,
whatever its event type, ParseAndHandle decodes nothing and calls no category
slot: it calls Plain with the payload and its raw message and returns the
result of Plain when Plain is populated, and returns nil without a call when
Plain is empty. -/
theorem ParseAndHandle_other_opcode {D : dto.Records} (H : Handlers D) (payload : dto.WSPayload)
    (hop : payload.OPCode ≠ dto.WSDispatchEvent) :
    (∀ plain : Callback Bytes, H.Plain = some plain →
      ParseAndHandle H payload =
        ⟨plain payload payload.RawMessage, [], [Call.Plain payload payload.RawMessage]⟩) ∧
    (H.Plain = none → ParseAndHandle H payload = ⟨none, [], []⟩) := by
  have hl := lookupRoutine_other_opcode D payload.OPCode payload.Type_ hop
  exact ⟨fun plain hp => ParseAndHandle_of_no_entry_plain H payload plain hl hp,
    fun hp => ParseAndHandle_of_no_entry_empty H payload hl hp⟩

/-- A message-create tag under operation code 1, with a message callback
registered and with Plain registered. -/
theorem ParseAndHandle_other_opcode_witness :
    ParseAndHandle messageRegistry heartbeatPayload = ⟨none, [], []⟩ ∧
      ParseAndHandle refusingRegistry heartbeatPayload =
        ⟨some (GoError.Callback "plain refused"), [],
          [Call.Plain heartbeatPayload scenarioBody]⟩ :=
  ⟨(ParseAndHandle_other_opcode messageRegistry heartbeatPayload (by decide)).2 rfl,
   (ParseAndHandle_other_opcode refusingRegistry heartbeatPayload (by decide)).1 _ rfl⟩

end Botgo
